import Mathlib

/-!
Verification development for the profile-generator scraper
(`src/utils/scraper.py`).  The Python module is shallowly embedded:
Python strings are Lean `String`s, parsed JSON documents are the
inductive `JVal`, parsed HTML documents (BeautifulSoup trees) are the
inductive `Node`, and the network boundary (`requests.get`,
site-specific API calls) is an explicit oracle datatype.  Every
definition mirrors the corresponding Python function; theorems at the
end settle the specification claims.
-/

namespace Scraper

/-! ## Python string primitives -/

/-- Python whitespace characters relevant to `str.strip` / `\s`
(ASCII subset: space, tab, newline, carriage return, vertical tab,
form feed). -/
def pySpace (c : Char) : Bool :=
  c = ' ' || c = '\t' || c = '\n' || c = '\r' ||
  c = Char.ofNat 11 || c = Char.ofNat 12

/-- `str.strip()` on a character list: drop whitespace at both ends. -/
def pyStripL (l : List Char) : List Char :=
  ((l.dropWhile pySpace).reverse.dropWhile pySpace).reverse

/-- Python `s.strip()`. -/
def pyStrip (s : String) : String := ⟨pyStripL s.data⟩

/-- Python `len(s)` (number of code points). -/
def pyLen (s : String) : Nat := s.data.length

/-- Python slicing `s[:n]`. -/
def pyTake (s : String) (n : Nat) : String := ⟨s.data.take n⟩

/-- Python `s.lower()` (ASCII model). -/
def pyLower (s : String) : String := ⟨s.data.map Char.toLower⟩

/-- Python `sub in s` (substring test). -/
def pyContainsB (sub s : String) : Bool := decide (sub.data <:+: s.data)

/-- Python `s.startswith(p)`. -/
def pyStartsWith (p s : String) : Bool := List.isPrefixOf p.data s.data

theorem length_dropWhile_le (p : Char → Bool) (l : List Char) :
    (l.dropWhile p).length ≤ l.length := by
  induction l with
  | nil => simp
  | cons c rest ih =>
    by_cases h : p c
    · simpa [List.dropWhile, h] using Nat.le_succ_of_le ih
    · simp [List.dropWhile, h]

/-- Collapse every maximal run of whitespace into one space
(the effect of `re.sub(r'\s+', ' ', s)`): a run of whitespace emits a
single space when it ends. -/
def collapseWS : List Char → List Char
  | [] => []
  | [c] => if pySpace c then [' '] else [c]
  | c :: d :: rest =>
    if pySpace c then
      if pySpace d then collapseWS (d :: rest)
      else ' ' :: collapseWS (d :: rest)
    else c :: collapseWS (d :: rest)

/-- `re.sub(r'\s+', ' ', s).strip()` — whitespace normalisation used
for deduplication in the semantic extractor. -/
def normWS (s : String) : String := pyStrip ⟨collapseWS s.data⟩

/-- Python `s.split(sep)` for a one-character separator (used with
`'\n'`); keeps empty fields like Python does. -/
def pySplitNl (s : String) : List String :=
  (s.data.splitOn '\n').map (⟨·⟩)

/-- A single-quote character, used when rendering Python `repr`. -/
def squote : String := String.singleton (Char.ofNat 39)

/-- Python `sep.join(parts)`. -/
def pyJoin (sep : String) : List String → String
  | [] => ""
  | [s] => s
  | s :: rest => s ++ sep ++ pyJoin sep rest

/-! ## Parsed JSON values (`json.loads` output) -/

/-- A parsed JSON document.  `jobj` models a Python dict produced by
`json.loads` (keys distinct, insertion order preserved); `jnum`
models JSON numbers as integers. -/
inductive JVal where
  | jstr (s : String)
  | jnum (n : Int)
  | jbool (b : Bool)
  | jnull
  | jarr (xs : List JVal)
  | jobj (fields : List (String × JVal))

namespace JVal

/-- Python `d.get(k)` on a dict: `none` models `None`. -/
def getAttr (fs : List (String × JVal)) (k : String) : Option JVal :=
  (fs.find? (fun p => p.1 = k)).map (·.2)

/-- Python truthiness of a JSON value. -/
def jtruthy : JVal → Bool
  | jstr s => s ≠ ""
  | jnum n => n ≠ 0
  | jbool b => b
  | jnull => false
  | jarr xs => !xs.isEmpty
  | jobj fs => !fs.isEmpty

/-- Truthiness of a `d.get(k)` result (`None` is falsy). -/
def otruthy : Option JVal → Bool
  | none => false
  | some v => jtruthy v

mutual

/-- Python `repr` of a JSON value (strings quoted; containers
rendered recursively).  Escaping inside strings is not modelled. -/
def pyRepr : JVal → String
  | jstr s => squote ++ s ++ squote
  | jnum n => toString n
  | jbool b => if b then "True" else "False"
  | jnull => "None"
  | jarr xs => "[" ++ pyJoin ", " (pyReprList xs) ++ "]"
  | jobj fs => "\x7b" ++ pyJoin ", " (pyReprFields fs) ++ "\x7d"

def pyReprList : List JVal → List String
  | [] => []
  | v :: rest => pyRepr v :: pyReprList rest

def pyReprFields : List (String × JVal) → List String
  | [] => []
  | (k, v) :: rest => (squote ++ k ++ squote ++ ": " ++ pyRepr v) :: pyReprFields rest

end

/-- Python `str` of a JSON value (`str` and `repr` agree except on
strings). -/
def pyStr : JVal → String
  | jstr s => s
  | v => pyRepr v

end JVal

/-! ## Parsed HTML documents (BeautifulSoup trees) -/

/-- A parsed HTML node: an element with a tag name, attributes and
children, or a bare text node.  A whole document is an element whose
tag is `[document]`. -/
inductive Node where
  | elem (tag : String) (attrs : List (String × String)) (children : List Node)
  | text (s : String)

namespace Node

/-- The tag name of a node (text nodes have none). -/
def tagOf : Node → Option String
  | elem t _ _ => some t
  | text _ => none

/-- `el.get(attr, '')` — attribute lookup with empty default. -/
def attrD (a : String) : Node → String
  | elem _ attrs _ => ((attrs.find? (fun p => p.1 = a)).map (·.2)).getD ""
  | text _ => ""

/-- Whether the node is an element carrying the given attribute. -/
def hasAttr (a : String) : Node → Bool
  | elem _ attrs _ => (attrs.find? (fun p => p.1 = a)).isSome
  | text _ => false

mutual

/-- All text-node strings below a node, in document order
(BeautifulSoup's `.strings`). -/
def strings : Node → List String
  | elem _ _ cs => stringsList cs
  | text s => [s]

def stringsList : List Node → List String
  | [] => []
  | n :: rest => strings n ++ stringsList rest

end

/-- BeautifulSoup `get_text(separator=sep, strip=True)`: each string
is stripped, empties dropped, remainder joined with `sep`. -/
def getTextStrip (sep : String) (n : Node) : String :=
  pyJoin sep (((strings n).map pyStrip).filter (fun s => s ≠ ""))

mutual

/-- All element descendants of the given nodes, in document order
(preorder).  This is what `find_all` / `find` search. -/
def descList : List Node → List Node
  | [] => []
  | n :: rest => descSelf n ++ descList rest

/-- The node itself (when an element) followed by its descendants. -/
def descSelf : Node → List Node
  | elem t a cs => elem t a cs :: descList cs
  | text _ => []

end

/-- Strict element descendants of a node (excluding the node itself),
in document order. -/
def descendants : Node → List Node
  | elem _ _ cs => descList cs
  | text _ => []

/-- `soup.find_all(pred)` over a subtree: descendants satisfying the
predicate. -/
def findAll (p : Node → Bool) (n : Node) : List Node :=
  (descendants n).filter p

/-- `soup.find(pred)`: first matching descendant. -/
def findFirst (p : Node → Bool) (n : Node) : Option Node :=
  (descendants n).find? p

mutual

/-- Remove (decompose) every element matched by `p` from a list of
sibling subtrees, recursively.  Matches BeautifulSoup
`for el in soup.find_all(...): el.decompose()` for predicates that
only inspect a node's tag and attributes. -/
def pruneList (p : Node → Bool) : List Node → List Node
  | [] => []
  | n :: rest => pruneNode p n ++ pruneList p rest

/-- Prune one subtree: drop it if matched, otherwise prune inside. -/
def pruneNode (p : Node → Bool) : Node → List Node
  | elem t a cs => if p (elem t a cs) then [] else [elem t a (pruneList p cs)]
  | text s => [text s]

end

/-- Prune below the document root (the root itself — the soup
object — is never returned by `find_all`, hence never removed). -/
def pruneDoc (p : Node → Bool) : Node → Node
  | elem t a cs => elem t a (pruneList p cs)
  | text s => text s

end Node

/-- Whether a node is an element with the given tag. -/
def tagIs (t : String) (n : Node) : Bool := n.tagOf = some t

/-! ## `extract_meta_tags` -/

/-- The `meta_names` mapping from meta attribute names to labels. -/
def metaNames : List (String × String) :=
  [("description", "Description"), ("keywords", "Keywords"),
   ("og:description", "Description"), ("og:title", "Title"),
   ("twitter:description", "Description"), ("dc.description", "Description")]

/-- The loop of `extract_meta_tags`: label recognised meta tags,
deduplicating by exact content. -/
def metaParts : List Node → List String → List String
  | [], _ => []
  | m :: rest, seen =>
    let nm := pyLower (if m.attrD "name" ≠ "" then m.attrD "name" else m.attrD "property")
    let content := m.attrD "content"
    match metaNames.find? (fun p => p.1 = nm) with
    | some lp =>
      if content ≠ "" ∧ pyLen content > 10 ∧ content ∉ seen then
        ("[" ++ lp.2 ++ "]: " ++ content) :: metaParts rest (content :: seen)
      else metaParts rest seen
    | none => metaParts rest seen

/-- `extract_meta_tags(soup)`. -/
def extract_meta_tags (doc : Node) : String :=
  pyJoin "\n" (metaParts (Node.findAll (tagIs "meta") doc) [])

/-! ## `extract_jsonld` -/

open JVal in
/-- `str(q.get('name','') if isinstance(q, dict) else q)` — the
rendering used for qualification/education/membership entries. -/
def nameOrSelf (q : JVal) : String :=
  match q with
  | .jobj qs => pyStr ((getAttr qs "name").getD (.jstr ""))
  | _ => JVal.pyStr q

/-- `', '.join(...)`. -/
def joinComma (ss : List String) : String := pyJoin ", " ss

/-- `', '.join` over values that must all be strings; `none` models
the `TypeError` Python raises when a non-string reaches `join`. -/
def strAll : List JVal → Option (List String)
  | [] => some []
  | .jstr s :: rest => (strAll rest).map (s :: ·)
  | _ => none

open JVal in
/-- A labelled line for a simple truthy field
(`parts.append(f"Label: {item[key]}")`). -/
def fieldPart (fs : List (String × JVal)) (key label : String) : List String :=
  match getAttr fs key with
  | some v => if v.jtruthy then [label ++ pyStr v] else []
  | none => []

open JVal in
/-- A labelled line for a field rendered as a comma-joined list when
it is a JSON array, or as a single value otherwise
(qualification / alumniOf pattern). -/
def listOrSingle (fs : List (String × JVal)) (key labelList labelSingle : String) :
    List String :=
  match getAttr fs key with
  | some v =>
    if v.jtruthy then
      match v with
      | .jarr xs => [labelList ++ joinComma (xs.map nameOrSelf)]
      | _ => [labelSingle ++ pyStr v]
    else []
  | none => []

/-- The schema.org types recognised as doctor/organisation profiles. -/
def profileTypes : List String :=
  ["Physician", "Person", "MedicalBusiness", "LocalBusiness",
   "Hospital", "MedicalOrganization", "IndividualPhysician"]

open JVal in
/-- `item.get('@type', '')` compared against the profile types. -/
def typeMatch (fs : List (String × JVal)) : Bool :=
  match (getAttr fs "@type").getD (.jstr "") with
  | .jstr s => s ∈ profileTypes
  | _ => false

open JVal in
/-- The labelled lines collected for one profile-typed JSON-LD item,
in source order.  `none` models the `TypeError` raised when a
non-string truthy address component reaches `', '.join`. -/
def ldParts (fs : List (String × JVal)) : Option (List String) :=
  let nameP := fieldPart fs "name" "Name: "
  let titleP := fieldPart fs "jobTitle" "Title: "
  let descP := fieldPart fs "description" "Description: "
  let specP :=
    match getAttr fs "medicalSpecialty" with
    | some v =>
      if v.jtruthy then
        match v with
        | .jarr xs => ["Specialties: " ++ joinComma (xs.map pyStr)]
        | _ => ["Specialty: " ++ pyStr v]
      else []
    | none => []
  let qualP := listOrSingle fs "qualification" "Qualifications: " "Qualification: "
  let eduP := listOrSingle fs "alumniOf" "Education: " "Education: "
  let workP :=
    match getAttr fs "worksFor" with
    | some v =>
      if v.jtruthy then
        match v with
        | .jobj os => ["Hospital: " ++ pyStr ((getAttr os "name").getD (.jstr ""))]
        | .jstr s => ["Hospital: " ++ s]
        | _ => []
      else []
    | none => []
  let addrP : Option (List String) :=
    match getAttr fs "address" with
    | some v =>
      if v.jtruthy then
        match v with
        | .jobj as_ =>
          let locs := [(getAttr as_ "addressLocality").getD (.jstr ""),
                       (getAttr as_ "addressRegion").getD (.jstr ""),
                       (getAttr as_ "addressCountry").getD (.jstr "")]
          (strAll (locs.filter jtruthy)).map (fun ss => ["Location: " ++ joinComma ss])
        | _ => some []
      else some []
    | none => some []
  match addrP with
  | none => none
  | some ap =>
    let membP :=
      match getAttr fs "memberOf" with
      | some v =>
        if v.jtruthy then
          match v with
          | .jarr ms => ["Memberships: " ++ joinComma (ms.map nameOrSelf)]
          | _ => ["Memberships: " ++ pyStr v]
        else []
      | none => []
    let knowP := fieldPart fs "knowsAbout" "Expertise: "
    let credP :=
      match getAttr fs "hasCredential" with
      | some v =>
        if v.jtruthy then
          match v with
          | .jarr cs => ["Credentials: " ++ joinComma (cs.map nameOrSelf)]
          | _ => []
        else []
      | none => []
    some (nameP ++ titleP ++ descP ++ specP ++ qualP ++ eduP ++ workP ++ ap ++
          membP ++ knowP ++ credP)

open JVal in
/-- The list iterated by `for item in items`: `data` when a list,
the `@graph` member when present in a dict, else the singleton.
`none` models the `TypeError` of iterating a non-iterable `@graph`. -/
def ldItemsOf (data : JVal) : Option (List JVal) :=
  match data with
  | .jarr xs => some xs
  | .jobj fs =>
    match getAttr fs "@graph" with
    | some g =>
      match g with
      | .jarr ys => some ys
      | .jobj gs => some (gs.map (fun p => JVal.jstr p.1))
      | .jstr s => some (s.data.map (fun c => JVal.jstr (String.singleton c)))
      | _ => none
    | none => some [data]
  | _ => some [data]

open JVal in
/-- The per-item loop body of `extract_jsonld`; a `TypeError` while
building an item's parts aborts the remaining items of this script,
keeping the texts collected so far. -/
def ldItems : List JVal → List String → List String
  | [], acc => acc
  | item :: rest, acc =>
    match item with
    | .jobj fs =>
      if typeMatch fs then
        match ldParts fs with
        | none => acc
        | some ps =>
          ldItems rest (if ps.isEmpty then acc else acc ++ [pyJoin "\n" ps])
      else
        match getAttr fs "description" with
        | some d =>
          if d.jtruthy ∧ pyLen (pyStr d) > 50 then
            ldItems rest (acc ++
              ["[" ++ pyStr ((getAttr fs "@type").getD (.jstr "")) ++ "] " ++
               pyStr ((getAttr fs "name").getD (.jstr "")) ++ ": " ++ pyStr d])
          else ldItems rest acc
        | none => ldItems rest acc
    | _ => ldItems rest acc

/-- Process one parsed `application/ld+json` script. -/
def ldScript (data : JVal) (acc : List String) : List String :=
  match ldItemsOf data with
  | none => acc
  | some items => ldItems items acc

/-- `extract_jsonld(soup)`: the scripts are given as parsed JSON
values (`none` for a script with no string or unparseable JSON). -/
def extract_jsonld (scripts : List (Option JVal)) : String :=
  pyJoin "\n\n"
    (scripts.foldl (fun acc so => match so with | none => acc | some d => ldScript d acc) [])

/-! ## `extract_nextdata` -/

/-- The biographical key names accepted for short strings. -/
def bioKeys : List String :=
  ["name", "title", "designation", "qualification", "degree", "specialty",
   "city", "hospital", "department", "experience", "language", "jobtitle",
   "position"]

/-- The long-string keep condition of `extract_strings`: longer than
20 characters and not URL/path/tag/JSON-shaped, under a key that is
not image/url/slug/id-like. -/
def ndKeepLong (cleaned prefx : String) : Bool :=
  pyLen cleaned > 20 &&
  !pyStartsWith "http" cleaned && !pyStartsWith "/" cleaned &&
  !pyStartsWith "<" cleaned && !pyStartsWith "\x7b" cleaned &&
  !pyContainsB "image" (pyLower prefx) && !pyContainsB "url" (pyLower prefx) &&
  !pyContainsB "slug" (pyLower prefx) && pyLower prefx ≠ "id" &&
  !pyContainsB "_id" (pyLower prefx)

/-- The short-string keep condition: between 6 and 20 characters with
a biographical key name. -/
def ndKeepShort (cleaned prefx : String) : Bool :=
  5 < pyLen cleaned && pyLen cleaned ≤ 20 && pyLower prefx ∈ bioKeys

mutual

/-- `extract_strings(obj, prefix, depth)`: depth-first collection of
string leaves, returning the parts in append order. -/
def ndWalk : JVal → String → Nat → List String
  | v, prefx, depth =>
    if depth > 6 then []
    else
      match v with
      | .jstr s =>
        let cleaned := pyStrip s
        if ndKeepLong cleaned prefx then [cleaned]
        else if ndKeepShort cleaned prefx then [prefx ++ ": " ++ cleaned]
        else []
      | .jobj fs => ndWalkFields fs depth
      | .jarr xs => ndWalkList xs prefx depth 50
      | _ => []

/-- Walk the key/value pairs of a dict, passing each key as prefix. -/
def ndWalkFields : List (String × JVal) → Nat → List String
  | [], _ => []
  | (k, v) :: rest, depth => ndWalk v k (depth + 1) ++ ndWalkFields rest depth

/-- Walk the first `budget` (50) items of a list (`obj[:50]`). -/
def ndWalkList : List JVal → String → Nat → Nat → List String
  | _, _, _, 0 => []
  | [], _, _, _ => []
  | x :: rest, prefx, depth, budget + 1 =>
    ndWalk x prefx (depth + 1) ++ ndWalkList rest prefx depth budget

end

/-- The doctor/profile keys preferred over the whole payload. -/
def doctorKeys : List String :=
  ["doctor", "doctorDetail", "doctorData", "profileData", "doctorProfile",
   "data", "pageData", "detail", "doctorInfo", "profile"]

open JVal in
/-- `for key in doctor_keys: if key in props and props[key]: ...` —
the first present truthy doctor key's value. -/
def ndTarget : List String → List (String × JVal) → Option JVal
  | [], _ => none
  | k :: rest, fs =>
    match getAttr fs k with
    | some v => if v.jtruthy then some v else ndTarget rest fs
    | none => ndTarget rest fs

/-- Order-preserving case-insensitive deduplication, discarding
entries whose normalised form has at most 3 characters. -/
def ndDedup : List String → List String → List String
  | [], _ => []
  | p :: rest, seen =>
    let normalized := pyStrip (pyLower p)
    if normalized ∉ seen ∧ pyLen normalized > 3 then
      p :: ndDedup rest (normalized :: seen)
    else ndDedup rest seen

/-- Deduplicate and cap at 100 entries, joined by newlines. -/
def ndOut (parts : List String) : String :=
  pyJoin "\n" ((ndDedup parts []).take 100)

open JVal in
/-- The body of `extract_nextdata` after `json.loads` succeeded.
Branches that raise a caught `TypeError`/`AttributeError` in Python
return the empty string. -/
def ndRun (data : JVal) : String :=
  match data with
  | .jobj fs =>
    match (getAttr fs "props").getD (.jobj []) with
    | .jobj ps =>
      let pp := (getAttr ps "pageProps").getD (.jobj [])
      if ¬ pp.jtruthy then ""
      else
        match pp with
        | .jobj gs =>
          match ndTarget doctorKeys gs with
          | some target => ndOut (ndWalk target "" 0)
          | none => ndOut (ndWalk pp "" 0)
        | .jstr s =>
          if doctorKeys.any (fun k => pyContainsB k s) then ""
          else ndOut (ndWalk pp "" 0)
        | .jarr xs =>
          if doctorKeys.any (fun k => xs.any (fun x =>
              match x with | .jstr s => s = k | _ => false)) then ""
          else ndOut (ndWalk pp "" 0)
        | _ => ""
    | _ => ""
  | _ => ""

/-- `extract_nextdata(soup)`: the argument is the parsed
`__NEXT_DATA__` payload (`none` when the script tag is missing, has
no string, or its JSON does not parse). -/
def extract_nextdata (nd : Option JVal) : String :=
  match nd with
  | none => ""
  | some d => ndRun d

/-! ## `extract_semantic_content` -/

/-- The tag names removed as noise by the semantic extractor. -/
def noiseTags : List String :=
  ["script", "style", "nav", "footer", "header", "iframe", "noscript",
   "svg", "button", "form", "aside", "figure"]

/-- The alternatives of the class/id noise regex. -/
def noiseKeywords : List String :=
  ["cookie", "consent", "popup", "modal", "banner", "advert", "sidebar",
   "widget", "social", "share", "comment", "related", "newsletter",
   "subscribe", "breadcrumb", "pagination", "menu", "nav-", "foot",
   "header", "toolbar", "sticky", "overlay"]

/-- Case-insensitive search of the noise regex in an attribute value
(the regex is a plain alternation of literals). -/
def noiseKeyMatch (v : String) : Bool :=
  noiseKeywords.any (fun k => pyContainsB k (pyLower v))

/-- An element with a tag in the noise tag list. -/
def isNoiseTag (n : Node) : Bool :=
  match n.tagOf with
  | some t => t ∈ noiseTags
  | none => false

/-- An element whose class attribute matches the noise regex. -/
def classNoise (n : Node) : Bool := n.hasAttr "class" && noiseKeyMatch (n.attrD "class")

/-- An element whose id attribute matches the noise regex. -/
def idNoise (n : Node) : Bool := n.hasAttr "id" && noiseKeyMatch (n.attrD "id")

/-- Noise removal: tags, then class matches, then id matches. -/
def semanticClean (doc : Node) : Node :=
  Node.pruneDoc idNoise (Node.pruneDoc classNoise (Node.pruneDoc isNoiseTag doc))

/-- The alternatives of the content-container class/id regex
(`div`/`div`-id selectors). -/
def contentKeywords : List String :=
  ["content", "main", "doctor", "profile", "detail", "about", "bio",
   "description"]

/-- The alternatives for the `section` class selector. -/
def sectionKeywords : List String :=
  ["content", "main", "doctor", "profile", "detail", "about", "bio"]

/-- Case-insensitive search of a container regex in an attribute. -/
def contentKeyMatch (kws : List String) (v : String) : Bool :=
  kws.any (fun k => pyContainsB k (pyLower v))

/-- The ordered content-container selectors. -/
def containerSelectors : List (Node → Bool) :=
  [tagIs "main",
   tagIs "article",
   fun n => tagIs "div" n && n.attrD "role" = "main",
   fun n => tagIs "div" n && n.hasAttr "class" && contentKeyMatch contentKeywords (n.attrD "class"),
   fun n => tagIs "div" n && n.hasAttr "id" && contentKeyMatch contentKeywords (n.attrD "id"),
   fun n => tagIs "section" n && n.hasAttr "class" && contentKeyMatch sectionKeywords (n.attrD "class")]

/-- Try the selectors in order: take the first whose first match has
more than 150 characters of stripped text. -/
def selectContainer : List (Node → Bool) → Node → Option Node
  | [], _ => none
  | p :: rest, w =>
    match Node.findFirst p w with
    | some el =>
      if pyLen (Node.getTextStrip "" el) > 150 then some el
      else selectContainer rest w
    | none => selectContainer rest w

/-- `work.find('body') or work` — a found `body` tag is always truthy
in BeautifulSoup (`Tag.__bool__` returns `True` even with no
contents), so the fallback fires only when there is no body. -/
def bodyOrSelf (w : Node) : Node :=
  match Node.findFirst (tagIs "body") w with
  | some b => b
  | none => w

/-- The content container: first accepted selector, else the body,
else the whole working copy. -/
def semContainer (w : Node) : Node :=
  match selectContainer containerSelectors w with
  | some el => el
  | none => bodyOrSelf w

/-- The block-level tags collected inside the container. -/
def blockTags : List String :=
  ["h1", "h2", "h3", "h4", "h5", "p", "li", "td", "th", "dd", "dt",
   "blockquote"]

/-- An element with a block-level tag. -/
def isBlockTag (n : Node) : Bool :=
  match n.tagOf with
  | some t => t ∈ blockTags
  | none => false

/-- The nested-block check used to skip wrapper cells. -/
def hasInnerBlock (n : Node) : Bool :=
  (Node.findFirst (fun c =>
    match c.tagOf with
    | some t => t ∈ ["h1", "h2", "h3", "h4", "p", "li"]
    | none => false) n).isSome

/-- Structure-preserving formatting per tag. -/
def semFmt (t clean : String) : String :=
  if t ∈ ["h1", "h2", "h3", "h4", "h5"] then "\n## " ++ clean
  else if t = "li" then "• " ++ clean
  else if t = "dt" then "\n**" ++ clean ++ "**"
  else if t = "dd" then "  " ++ clean
  else clean

/-- The element loop of `extract_semantic_content`: skip wrapper
cells and short texts, deduplicate by whitespace-normalised text,
format the rest. -/
def semProcess : List Node → List String → List String
  | [], _ => []
  | e :: rest, seen =>
    if (match e.tagOf with
        | some t => t ∈ ["div", "section", "td"]
        | none => false : Bool) && hasInnerBlock e then
      semProcess rest seen
    else
      let txt := Node.getTextStrip " " e
      if txt = "" ∨ pyLen txt < 5 then semProcess rest seen
      else
        let clean := normWS txt
        if clean ∈ seen then semProcess rest seen
        else semFmt (e.tagOf.getD "") clean :: semProcess rest (clean :: seen)

/-- `extract_semantic_content(soup)`. -/
def extract_semantic_content (doc : Node) : String :=
  let w := semanticClean doc
  pyJoin "\n" (semProcess (Node.findAll isBlockTag (semContainer w)) [])

/-! ## `extract_body_text` -/

/-- Tags removed before the full-body fallback. -/
def bodyNoiseTags : List String :=
  ["script", "style", "nav", "footer", "iframe", "noscript", "svg"]

/-- `extract_body_text(soup)`. -/
def extract_body_text (doc : Node) : String :=
  let w := Node.pruneDoc (fun n =>
    match n.tagOf with
    | some t => t ∈ bodyNoiseTags
    | none => false) doc
  let txt := Node.getTextStrip "\n" (bodyOrSelf w)
  let lines := ((pySplitNl txt).map pyStrip).filter (fun l => l ≠ "")
  pyJoin "\n"
    (lines.filter (fun l => pyLen l > 10 ∨ pyStartsWith "•" l ∨
      pyStartsWith "-" l ∨ pyStartsWith "*" l ∨ pyStartsWith "–" l))

/-! ## `scrape_single_url` -/

/-- A fetched page as the extractor sees it: the parsed document plus
the parsed payloads of its JSON script tags (kept alongside the tree
because the embedding does not parse JSON text). -/
structure Soup where
  doc : Node
  ld : List (Option JVal)
  nextData : Option JVal

/-- The stripped text of the first `h1` element
(`soup.find('h1')`); `some ""` when an empty `h1` exists. -/
def soupFindH1 (doc : Node) : Option String :=
  (Node.findFirst (tagIs "h1") doc).map (Node.getTextStrip "")

/-- The stripped text of the first `title` element. -/
def soupFindTitle (doc : Node) : Option String :=
  (Node.findFirst (tagIs "title") doc).map (Node.getTextStrip "")

/-- The result dict of `scrape_single_url` (keys it may carry:
`text`, `title`, `method`, `error`). -/
structure ScrapeResult where
  text : String
  title : String
  method : Option String := none
  error : Option String := none

/-- The fixed message of the JavaScript-rendered failure state. -/
def jsRenderedMsg : String :=
  "(Page appears to be JavaScript-rendered. Content could not be extracted automatically. Please paste the doctor" ++
  squote ++ "s information manually using the text box below.)"

/-- The body of `scrape_single_url` once HTML was fetched and parsed.
The whole strategy cascade of the source sits inside the
`elif title_tag:` arm of the title computation, so a page with an
`h1`, or with neither `h1` nor `title`, falls off the end of the
function (Python returns `None`). -/
def scrapeCore (soup : Soup) : Option ScrapeResult :=
  match soupFindH1 soup.doc with
  | some _ => none
  | none =>
    match soupFindTitle soup.doc with
    | none => none
    | some title =>
      let jsonld_text := extract_jsonld soup.ld
      if jsonld_text ≠ "" ∧ pyLen jsonld_text > 100 then
        let semantic_text := extract_semantic_content soup.doc
        let combined := "[Page: " ++ title ++ "]\n\n--- Structured Data ---\n" ++ jsonld_text
        let combined :=
          if semantic_text ≠ "" ∧ pyLen semantic_text > 100 then
            combined ++ "\n\n--- Page Content ---\n" ++ semantic_text
          else combined
        some { text := pyTake combined 8000, title := title, method := some "json-ld" }
      else
        let nextdata_text := extract_nextdata soup.nextData
        if nextdata_text ≠ "" ∧ pyLen nextdata_text > 100 then
          let semantic_text := extract_semantic_content soup.doc
          let combined := "[Page: " ++ title ++ "]\n\n--- Next.js Data ---\n" ++ nextdata_text
          let combined :=
            if semantic_text ≠ "" ∧ pyLen semantic_text > 100 then
              combined ++ "\n\n--- Page Content ---\n" ++ semantic_text
            else combined
          some { text := pyTake combined 8000, title := title, method := some "nextjs-data" }
        else
          let meta_text := extract_meta_tags soup.doc
          let semantic_text := extract_semantic_content soup.doc
          if semantic_text ≠ "" ∧ pyLen semantic_text > 200 then
            let full_text := "[Page: " ++ title ++ "]\n" ++
              (if meta_text ≠ "" then "\n" ++ meta_text ++ "\n" else "") ++
              "\n" ++ semantic_text
            some { text := pyTake full_text 8000, title := title, method := some "semantic" }
          else
            let body_text := extract_body_text soup.doc
            if body_text ≠ "" ∧ pyLen body_text > 100 then
              let full_text := "[Page: " ++ title ++ "]\n" ++
                (if meta_text ≠ "" then "\n" ++ meta_text ++ "\n" else "") ++
                "\n" ++ body_text
              some { text := pyTake full_text 8000, title := title, method := some "body-text" }
            else if meta_text ≠ "" then
              some { text := "[Page: " ++ title ++ "]\n\n" ++ meta_text,
                     title := title, method := some "meta-only" }
            else
              some { text := "[Page: " ++ title ++ "]\n\n" ++ jsRenderedMsg,
                     title := title,
                     error := some ("JavaScript-rendered page — use manual input") }

/-- The outcome of one `requests.get` attempt (network oracle):
a response with status code, body length and parsed body, or one of
the exception classes the source distinguishes. -/
inductive FetchOutcome where
  | ok (status : Nat) (bodyLen : Nat) (soup : Soup)
  | timeout
  | connError (msg : String)
  | exc (msg : String)

/-- The header-rotation retry loop (`for i, headers in
enumerate(header_sets)`): accept the first HTTP-200 response whose
body exceeds 500 characters; a `ConnectionError` breaks out of the
loop.  Returns the parsed page (when obtained) and `last_error`. -/
def fetchLoop : List FetchOutcome → String → Nat → Option Soup × String
  | [], lastErr, _ => (none, lastErr)
  | o :: rest, lastErr, i =>
    match o with
    | .ok status bodyLen soup =>
      if status = 200 ∧ bodyLen > 500 then (some soup, lastErr)
      else fetchLoop rest ("HTTP " ++ toString status ++ " (attempt " ++ toString (i + 1) ++ ")") (i + 1)
    | .timeout => fetchLoop rest ("Timeout (attempt " ++ toString (i + 1) ++ ")") (i + 1)
    | .connError m => (none, "Connection failed: " ++ pyTake m 80)
    | .exc m => fetchLoop rest (pyTake m 100) (i + 1)

/-- The network's behaviour for one URL: the result the Max
Healthcare site-specific scraper would produce (an oracle, since it
is pure I/O), and the outcomes of the three generic header-profile
attempts. -/
structure SingleEnv where
  maxApi : Option ScrapeResult
  attempts : List FetchOutcome

/-- `try_site_specific_api(url)`: Max Healthcare doctor pages are
routed to the site-specific scraper, everything else returns `None`. -/
def try_site_specific_api (url : String) (maxApi : Option ScrapeResult) :
    Option ScrapeResult :=
  if pyContainsB "maxhealthcare.in/doctor/" (pyLower url) then maxApi else none

/-- `scrape_single_url(url)`: site-specific pre-check, then the
header-rotation fetch, then the strategy cascade.  `none` models
Python's implicit `None` return. -/
def scrape_single_url (url : String) (env : SingleEnv) : Option ScrapeResult :=
  match try_site_specific_api url env.maxApi with
  | some sr =>
    if sr.text ≠ "" ∧ pyLen sr.text > 100 then some sr
    else scrapeAfterSite env
  | none => scrapeAfterSite env
where
  /-- The generic pipeline after the site-specific pre-check. -/
  scrapeAfterSite (env : SingleEnv) : Option ScrapeResult :=
    match fetchLoop env.attempts "" 0 with
    | (some soup, _) => scrapeCore soup
    | (none, lastErr) =>
      some { text := "", title := "",
             error := some (if lastErr ≠ "" then lastErr else "Could not fetch page") }

/-! ## `scrape_multiple_urls` -/

/-- The four accumulator lists of the batch loop
(`all_sections`, `successful_urls`, `all_titles`, `errors`). -/
structure ScanAcc where
  sections : List String
  successes : List String
  titles : List String
  errors : List String

/-- The per-URL loop of `scrape_multiple_urls`, accumulating in input
order.  `envs i` is the network's behaviour for the `i`-th entry (the
source varies only the user agent with `i`). -/
def batchScan (envs : Nat → SingleEnv) : List String → Nat → ScanAcc
  | [], _ => ⟨[], [], [], []⟩
  | url :: rest, i =>
    let u := pyStrip url
    if u = "" then batchScan envs rest (i + 1)
    else
      let acc := batchScan envs rest (i + 1)
      match scrape_single_url u (envs i) with
      | some data =>
        if data.text ≠ "" ∧ pyLen (pyStrip data.text) > 50 then
          ⟨("=== SOURCE: " ++ u ++ " ===\n" ++ data.text) :: acc.sections,
           u :: acc.successes, data.title :: acc.titles, acc.errors⟩
        else
          ⟨acc.sections, acc.successes, acc.titles,
           (u ++ ": " ++ (data.error.getD "No content extracted")) :: acc.errors⟩
      | none =>
        ⟨acc.sections, acc.successes, acc.titles,
         (u ++ ": " ++ "Request failed") :: acc.errors⟩

/-- The batch result dict. -/
structure BatchResult where
  urls : List String
  url_count : Nat
  combined_text : String
  titles : List String
  errors : List String
  has_manual_text : Bool
  total_chars : Nat

/-- The manual-input section marker. -/
def manualMarker : String := "=== MANUAL INPUT (pasted by user) ==="

/-- `scrape_multiple_urls(urls, manual_text)`. -/
def scrape_multiple_urls (envs : Nat → SingleEnv) (urls : List String)
    (manual_text : String) : Option BatchResult :=
  let acc := batchScan envs urls 0
  let all_sections :=
    acc.sections ++ (if manual_text ≠ "" ∧ pyStrip manual_text ≠ "" then
      [manualMarker ++ "\n" ++ pyStrip manual_text] else [])
  let combined_text := pyJoin "\n\n" all_sections
  if pyStrip combined_text = "" then none
  else
    some { urls := acc.successes,
           url_count := acc.successes.length,
           combined_text := pyTake combined_text 15000,
           titles := acc.titles.filter (fun t => t ≠ ""),
           errors := acc.errors,
           has_manual_text := decide (manual_text ≠ "" ∧ pyStrip manual_text ≠ ""),
           total_chars := pyLen combined_text }

/-- The pre-truncation combined text of `scrape_multiple_urls`: the
source-delimited sections in input order, followed by the manual
section when present, joined by blank lines (`combined` before the
`[:15000]` cut). -/
def batchCombined (envs : Nat → SingleEnv) (urls : List String)
    (manual_text : String) : String :=
  pyJoin "\n\n" ((batchScan envs urls 0).sections ++
    (if manual_text ≠ "" ∧ pyStrip manual_text ≠ "" then
      [manualMarker ++ "\n" ++ pyStrip manual_text] else []))

/-- The per-attempt outcomes after which the fetch loop moves on to
the next header profile: timeouts, unusable responses (non-200 or
tiny body) and generic exceptions — but not connection errors, which
break out of the loop. -/
def retriable : FetchOutcome → Bool
  | .ok status bodyLen _ => decide (¬(status = 200 ∧ bodyLen > 500))
  | .timeout => true
  | .connError _ => false
  | .exc _ => true

/-! ## Concrete example pages and environments -/

/-- A page carrying an `h1` element (and a JSON-LD physician profile,
and a long `main` element) — the strategy cascade is unreachable on
such a page. -/
def exH1Doc : Node :=
  Node.elem "[document]" []
    [Node.elem "html" []
      [Node.elem "head" [] [Node.elem "title" [] [Node.text "Dr. A — Hospital"]],
       Node.elem "body" []
        [Node.elem "h1" [] [Node.text "Dr. A"],
         Node.elem "main" []
          [Node.elem "p" []
            [Node.text "Dr. A is a senior consultant cardiologist with over twenty years of experience in interventional cardiology, complex angioplasty and structural heart disease, practising at a leading tertiary-care hospital."],
           Node.elem "ul" []
            [Node.elem "li" [] [Node.text "MBBS, MD, DM Cardiology"],
             Node.elem "li" [] [Node.text "Fellow of the American College of Cardiology"]]]]]]

/-- The description used in the example JSON-LD physician item. -/
def exDesc : String :=
  "Senior consultant cardiologist with over twenty years of experience in interventional cardiology and structural heart disease, practising at a leading tertiary-care hospital."

/-- The fields of the example JSON-LD physician item. -/
def exPhysFields : List (String × JVal) :=
  [("@type", JVal.jstr "Physician"),
   ("name", JVal.jstr "Dr. A"),
   ("description", JVal.jstr exDesc)]

/-- A JSON-LD physician item with a name and a long description. -/
def exPhysician : JVal := JVal.jobj exPhysFields

/-- The page of `exH1Doc` as a fetched soup with the physician
profile in a JSON-LD script. -/
def exH1Soup : Soup := ⟨exH1Doc, [some exPhysician], none⟩

/-- A network environment whose first attempt succeeds with the
`h1`-carrying page. -/
def exH1Env : SingleEnv := ⟨none, [.ok 200 600 exH1Soup]⟩

/-- A page with a `title` but no `h1`, whose JSON-LD physician block
is the only content. -/
def exLdDoc : Node :=
  Node.elem "[document]" []
    [Node.elem "html" []
      [Node.elem "head" [] [Node.elem "title" [] [Node.text "Dr. A — Hospital"]],
       Node.elem "body" [] []]]

/-- The JSON-LD-only page as a fetched soup. -/
def exLdSoup : Soup := ⟨exLdDoc, [some exPhysician], none⟩

/-- A network environment serving the JSON-LD-only page. -/
def exLdEnv : SingleEnv := ⟨none, [.ok 200 600 exLdSoup]⟩

/-- A 15100-character meta description (far beyond both caps). -/
def bigContent : String := String.mk (List.replicate 15100 'a')

/-- A page whose only extractable content is a huge meta description:
it lands in the meta-only state. -/
def exMetaDoc : Node :=
  Node.elem "[document]" []
    [Node.elem "html" []
      [Node.elem "head" []
        [Node.elem "title" [] [Node.text "T"],
         Node.elem "meta" [("name", "description"), ("content", bigContent)] []],
       Node.elem "body" [] []]]

/-- The huge-meta page as a fetched soup. -/
def exMetaSoup : Soup := ⟨exMetaDoc, [], none⟩

/-- A network environment serving the huge-meta page. -/
def exMetaEnv : SingleEnv := ⟨none, [.ok 200 600 exMetaSoup]⟩

/-- The meta-only text the huge-meta page produces. -/
def bigMetaText : String := "[Page: T]\n\n[Description]: " ++ bigContent

/-- A short meta description for a small companion page. -/
def smallContent : String :=
  "Senior consultant cardiologist with decades of experience in care."

/-- A small page that also lands in the meta-only state. -/
def exSmallDoc : Node :=
  Node.elem "[document]" []
    [Node.elem "html" []
      [Node.elem "head" []
        [Node.elem "title" [] [Node.text "U"],
         Node.elem "meta" [("name", "description"), ("content", smallContent)] []],
       Node.elem "body" [] []]]

/-- The small page as a fetched soup. -/
def exSmallSoup : Soup := ⟨exSmallDoc, [], none⟩

/-- A network environment serving the small page. -/
def exSmallEnv : SingleEnv := ⟨none, [.ok 200 600 exSmallSoup]⟩

/-- The meta-only text of the small page. -/
def smallMetaText : String := "[Page: U]\n\n[Description]: " ++ smallContent

/-- A network environment whose three attempts all time out. -/
def failEnv : SingleEnv := ⟨none, [.timeout, .timeout, .timeout]⟩

/-- The network for the three-URL batch: the first URL serves the
huge-meta page, the second times out, the third serves the small
page. -/
def c6envs : Nat → SingleEnv :=
  fun i => if i = 0 then exMetaEnv else if i = 1 then failEnv else exSmallEnv

/-- The first section of that batch's combined text. -/
def c6sec1 : String := "=== SOURCE: " ++ "u1" ++ " ===\n" ++ bigMetaText

/-- The third URL's section. -/
def c6sec3 : String := "=== SOURCE: " ++ "u3" ++ " ===\n" ++ smallMetaText

/-- The pre-truncation combined text of that batch. -/
def c6combined : String := c6sec1 ++ "\n\n" ++ c6sec3

/-- The batch result of that three-URL batch. -/
def c6res : BatchResult :=
  ⟨["u1", "u3"], 2, pyTake c6combined 15000, ["T", "U"],
   ["u2" ++ ": " ++ "Timeout (attempt 3)"], false, pyLen c6combined⟩

/-- A small three-URL network: two small successes around a failing
second URL. -/
def c6envsSmall : Nat → SingleEnv :=
  fun i => if i = 0 then exSmallEnv else if i = 1 then failEnv else exSmallEnv

/-- A page with a `title`, no `h1`, no structured data, and a `main`
element holding a long paragraph and a list. -/
def exSemDoc : Node :=
  Node.elem "[document]" []
    [Node.elem "html" []
      [Node.elem "head" [] [Node.elem "title" [] [Node.text "Dr. B Profile"]],
       Node.elem "body" []
        [Node.elem "main" []
          [Node.elem "p" []
            [Node.text "Dr. B is a senior consultant cardiologist with over twenty years of experience in interventional cardiology, complex coronary angioplasty and structural heart disease, currently practising at a leading tertiary-care hospital in the region."],
           Node.elem "ul" []
            [Node.elem "li" [] [Node.text "MBBS, MD, DM Cardiology"],
             Node.elem "li" [] [Node.text "Fellow of the American College of Cardiology"]]]]]]

/-- The semantic-content page as a fetched soup (no JSON-LD, no
framework payload). -/
def exSemSoup : Soup := ⟨exSemDoc, [], none⟩

/-- The example list item inside `exSemDoc`'s main element. -/
def exSemLi : Node := Node.elem "li" [] [Node.text "MBBS, MD, DM Cardiology"]

/-- The `main` element of `exSemDoc` (noise pruning leaves it
unchanged). -/
def exSemMain : Node :=
  Node.elem "main" []
    [Node.elem "p" []
      [Node.text "Dr. B is a senior consultant cardiologist with over twenty years of experience in interventional cardiology, complex coronary angioplasty and structural heart disease, currently practising at a leading tertiary-care hospital in the region."],
     Node.elem "ul" []
      [Node.elem "li" [] [Node.text "MBBS, MD, DM Cardiology"],
       Node.elem "li" [] [Node.text "Fellow of the American College of Cardiology"]]]

/-! ## Basic lemmas about the string primitives -/

theorem pyLen_append (a b : String) : pyLen (a ++ b) = pyLen a + pyLen b := by
  simp [pyLen, String.data_append]

theorem pyLen_pyTake_le (s : String) (n : Nat) : pyLen (pyTake s n) ≤ n := by
  simp only [pyLen, pyTake, List.length_take]
  omega

theorem pyContainsB_iff (sub s : String) :
    pyContainsB sub s = true ↔ sub.data <:+: s.data := by
  simp [pyContainsB]

/-- A prefix of bounded length survives truncation. -/
theorem prefix_pyTake (pre s : String) (n : Nat)
    (hp : pre.data <+: s.data) (hl : pyLen pre ≤ n) :
    pre.data <+: (pyTake s n).data := by
  obtain ⟨suf, hsuf⟩ := hp
  simp only [pyTake, ← hsuf, List.take_append_eq_append_take]
  rw [List.take_of_length_le (le_trans (le_of_eq rfl) hl)]
  exact ⟨_, rfl⟩

/-- Membership in a joined list gives a substring of the join. -/
theorem mem_pyJoin_infix (sep p : String) (parts : List String)
    (h : p ∈ parts) : p.data <:+: (pyJoin sep parts).data := by
  induction parts with
  | nil => cases h
  | cons s rest ih =>
    rcases List.mem_cons.mp h with rfl | h2
    · cases rest with
      | nil => exact List.infix_refl _
      | cons s2 rest2 =>
        refine List.IsPrefix.isInfix ⟨(sep ++ pyJoin sep (s2 :: rest2)).data, ?_⟩
        simp [pyJoin, String.data_append]
    · cases rest with
      | nil => cases h2
      | cons s2 rest2 =>
        refine (ih h2).trans (List.IsSuffix.isInfix ⟨(s ++ sep).data, ?_⟩)
        simp [pyJoin, String.data_append]

theorem pyStripL_eq_nil_iff (l : List Char) :
    pyStripL l = [] ↔ ∀ c ∈ l, pySpace c = true := by
  unfold pyStripL
  rw [List.reverse_eq_nil_iff, List.dropWhile_eq_nil_iff]
  constructor
  · intro h c hc
    by_cases hmem : c ∈ l.dropWhile pySpace
    · exact h c (by simpa using hmem)
    · have hsplit : l = l.takeWhile pySpace ++ l.dropWhile pySpace :=
        (List.takeWhile_append_dropWhile pySpace l).symm
      rw [hsplit] at hc
      rcases List.mem_append.mp hc with h1 | h1
      · exact List.mem_takeWhile_imp h1
      · exact absurd h1 hmem
  · intro h c hc
    exact h c (List.dropWhile_sublist pySpace |>.mem (by simpa using hc))

theorem pyStrip_eq_empty_iff (s : String) :
    pyStrip s = "" ↔ ∀ c ∈ s.data, pySpace c = true := by
  constructor
  · intro h
    have : pyStripL s.data = [] := congrArg String.data h
    exact (pyStripL_eq_nil_iff _).mp this
  · intro h
    have h2 : pyStripL s.data = [] := (pyStripL_eq_nil_iff _).mpr h
    unfold pyStrip
    rw [h2]

/-- A string containing a non-whitespace character does not strip to
the empty string. -/
theorem pyStrip_ne_empty_of_mem (s : String) (c : Char) (hc : c ∈ s.data)
    (hns : pySpace c = false) : pyStrip s ≠ "" := by
  intro h
  have := (pyStrip_eq_empty_iff s).mp h c hc
  rw [hns] at this
  cases this

/-- A section starting with the `===` delimiter does not strip to the
empty string. -/
theorem section_strip_ne_empty (pre rest : String)
    (hpre : pre.data = '=' :: pre.data.tail) :
    pyStrip (pre ++ rest) ≠ "" := by
  apply pyStrip_ne_empty_of_mem _ '='
  · rw [String.data_append, hpre]
    exact List.mem_append_left _ (List.mem_cons_self _ _)
  · decide

theorem pyStripL_sandwich (a b : Char) (mid : List Char)
    (ha : pySpace a = false) (hb : pySpace b = false) :
    pyStripL (a :: (mid ++ [b])) = a :: (mid ++ [b]) := by
  unfold pyStripL
  have h1 : List.dropWhile pySpace (a :: (mid ++ [b])) = a :: (mid ++ [b]) := by
    simp [List.dropWhile_cons, ha]
  rw [h1]
  have h2 : (a :: (mid ++ [b])).reverse = b :: (mid.reverse ++ [a]) := by
    simp
  rw [h2]
  have h3 : List.dropWhile pySpace (b :: (mid.reverse ++ [a])) =
      b :: (mid.reverse ++ [a]) := by
    simp [List.dropWhile_cons, hb]
  rw [h3]
  simp

/-- A string whose first and last characters are not whitespace strips
to itself. -/
theorem pyStrip_sandwich (s : String) (a b : Char) (mid : List Char)
    (hs : s.data = a :: (mid ++ [b]))
    (ha : pySpace a = false) (hb : pySpace b = false) : pyStrip s = s := by
  unfold pyStrip
  rw [hs, pyStripL_sandwich a b mid ha hb, ← hs]

theorem bigContent_data : bigContent.data = List.replicate 15100 'a' := rfl

theorem bigContent_len : pyLen bigContent = 15100 := by
  rw [pyLen, bigContent_data]
  exact List.length_replicate _ _

theorem bigContent_ne : bigContent ≠ "" := by
  intro h
  have h2 := congrArg String.data h
  rw [bigContent_data] at h2
  have hL := congrArg List.length h2
  rw [List.length_replicate] at hL
  simp at hL

theorem bigMetaText_data :
    bigMetaText.data =
      ("[Page: T]\n\n[Description]: " : String).data ++ List.replicate 15100 'a' := by
  unfold bigMetaText
  rw [String.data_append, bigContent_data]

theorem bigMetaText_len : pyLen bigMetaText = 15126 := by
  unfold pyLen
  rw [bigMetaText_data, List.length_append, List.length_replicate]
  rfl

theorem bigMetaText_sandwich_data :
    bigMetaText.data =
      '[' :: ((("Page: T]\n\n[Description]: " : String).data ++
        List.replicate 15099 'a') ++ ['a']) := by
  rw [bigMetaText_data]
  rw [show (15100 : Nat) = 15099 + 1 from rfl, List.replicate_succ']
  rw [show ("[Page: T]\n\n[Description]: " : String).data =
      '[' :: ("Page: T]\n\n[Description]: " : String).data from rfl]
  rw [List.cons_append, ← List.append_assoc]

theorem bigMetaText_strip : pyStrip bigMetaText = bigMetaText :=
  pyStrip_sandwich _ '[' 'a' _ bigMetaText_sandwich_data (by decide) (by decide)

theorem bigMetaText_ne : bigMetaText ≠ "" := by
  intro h
  have h2 := congrArg String.data h
  rw [bigMetaText_sandwich_data] at h2
  cases h2

/-- Every character of the huge meta text is either from the short
literal prefix or the letter `a`. -/
theorem mem_bigMetaText (c : Char) (hc : c ∈ bigMetaText.data) :
    c ∈ ("[Page: T]\n\n[Description]: " : String).data ∨ c = 'a' := by
  rw [bigMetaText_data] at hc
  rcases List.mem_append.mp hc with h | h
  · exact Or.inl h
  · exact Or.inr (List.eq_of_mem_replicate h)

/-- A single recognised description meta tag yields one labelled
line. -/
theorem metaParts_single (c : String) (hne : c ≠ "") (hlen : pyLen c > 10) :
    metaParts [Node.elem "meta" [("name", "description"), ("content", c)] []] []
      = ["[Description]: " ++ c] := by
  show (if c ≠ "" ∧ pyLen c > 10 ∧ c ∉ ([] : List String) then
      ("[" ++ "Description" ++ "]: " ++ c) ::
        metaParts [] (c :: []) else metaParts [] []) = ["[Description]: " ++ c]
  rw [if_pos ⟨hne, hlen, List.not_mem_nil c⟩]
  rfl

theorem exMeta_meta_tags :
    extract_meta_tags exMetaDoc = "[Description]: " ++ bigContent := by
  unfold extract_meta_tags
  rw [show Node.findAll (tagIs "meta") exMetaDoc =
      [Node.elem "meta" [("name", "description"), ("content", bigContent)] []] from rfl]
  rw [metaParts_single bigContent bigContent_ne (by rw [bigContent_len]; norm_num)]
  rfl

/-- Appending something to a nonempty-literal prefix cannot give the
empty string. -/
theorem append_ne_empty_left (s t : String) (hs : s.data ≠ []) : s ++ t ≠ "" := by
  intro h
  have h2 := congrArg String.data h
  rw [String.data_append] at h2
  exact hs (List.append_eq_nil.mp h2).1

/-- The huge-meta page scrapes to the untruncated meta-only result
(for any URL off the site-specific override). -/
theorem exMeta_scrape (url : String)
    (hsite : pyContainsB "maxhealthcare.in/doctor/" (pyLower url) = false) :
    scrape_single_url url exMetaEnv = some ⟨bigMetaText, "T", some "meta-only", none⟩ := by
  unfold scrape_single_url try_site_specific_api
  rw [if_neg (by rw [hsite]; exact Bool.false_ne_true)]
  unfold scrape_single_url.scrapeAfterSite
  rw [show fetchLoop exMetaEnv.attempts "" 0 = (some exMetaSoup, "") from rfl]
  show scrapeCore exMetaSoup = _
  unfold scrapeCore
  rw [show soupFindH1 exMetaSoup.doc = none from rfl]
  rw [show soupFindTitle exMetaSoup.doc = some "T" from rfl]
  dsimp only
  rw [if_neg (show ¬(extract_jsonld exMetaSoup.ld ≠ "" ∧
      pyLen (extract_jsonld exMetaSoup.ld) > 100) from by decide)]
  rw [if_neg (show ¬(extract_nextdata exMetaSoup.nextData ≠ "" ∧
      pyLen (extract_nextdata exMetaSoup.nextData) > 100) from by decide)]
  rw [if_neg (show ¬(extract_semantic_content exMetaSoup.doc ≠ "" ∧
      pyLen (extract_semantic_content exMetaSoup.doc) > 200) from by decide)]
  rw [if_neg (show ¬(extract_body_text exMetaSoup.doc ≠ "" ∧
      pyLen (extract_body_text exMetaSoup.doc) > 100) from by decide)]
  rw [show extract_meta_tags exMetaSoup.doc = "[Description]: " ++ bigContent from
    exMeta_meta_tags]
  rw [if_pos (append_ne_empty_left _ _ (by decide))]
  rfl

/-! ## Claim theorems -/

/-- **C4** — For every input URL list and manual text, the
`combined_text` field of a non-null batch result has length at most
the batch cap of 15000 characters and is the 15000-character prefix
of the pre-truncation combined text, while the `total_chars` field
equals the length of that pre-truncation combined text. -/
theorem c4_batch_cap_and_total_chars (envs : Nat → SingleEnv)
    (urls : List String) (manual_text : String) (r : BatchResult)
    (h : scrape_multiple_urls envs urls manual_text = some r) :
    pyLen r.combined_text ≤ 15000 ∧
    r.combined_text = pyTake (batchCombined envs urls manual_text) 15000 ∧
    r.total_chars = pyLen (batchCombined envs urls manual_text) := by
  unfold scrape_multiple_urls at h
  unfold batchCombined
  dsimp only at h
  by_cases hm : manual_text ≠ "" ∧ pyStrip manual_text ≠ ""
  · rw [if_pos hm] at h ⊢
    split at h
    · cases h
    · cases h
      exact ⟨pyLen_pyTake_le _ _, rfl, rfl⟩
  · rw [if_neg hm] at h ⊢
    split at h
    · cases h
    · cases h
      exact ⟨pyLen_pyTake_le _ _, rfl, rfl⟩

/-- **C4 witness**: a concrete batch call satisfying the cap and the
pre-truncation bookkeeping. -/
theorem c4_witness :
    pyLen ((scrape_multiple_urls (fun _ => ⟨none, []⟩) [] "hello").getD
      ⟨[], 0, "", [], [], false, 0⟩).combined_text ≤ 15000 ∧
    ((scrape_multiple_urls (fun _ => ⟨none, []⟩) [] "hello").getD
      ⟨[], 0, "", [], [], false, 0⟩).combined_text =
      pyTake (batchCombined (fun _ => ⟨none, []⟩) [] "hello") 15000 ∧
    ((scrape_multiple_urls (fun _ => ⟨none, []⟩) [] "hello").getD
      ⟨[], 0, "", [], [], false, 0⟩).total_chars =
      pyLen (batchCombined (fun _ => ⟨none, []⟩) [] "hello") :=
  c4_batch_cap_and_total_chars (fun _ => ⟨none, []⟩) [] "hello" _ rfl

/-- **C7** — Given an empty URL list and non-empty, non-whitespace
manual text, the batch result is non-null, `has_manual_text` is true,
`url_count` is 0, and the combined text contains the manual-input
section marker. -/
theorem c7_manual_only (envs : Nat → SingleEnv) (manual_text : String)
    (hm : pyStrip manual_text ≠ "") :
    ∃ r, scrape_multiple_urls envs [] manual_text = some r ∧
      r.has_manual_text = true ∧ r.url_count = 0 ∧
      pyContainsB manualMarker r.combined_text = true := by
  have hm0 : manual_text ≠ "" := by
    intro h
    apply hm
    rw [h]
    rfl
  have hpre : (manualMarker ++ "\n").data = '=' :: (manualMarker ++ "\n").data.tail := by
    decide
  have hne : pyStrip (manualMarker ++ "\n" ++ pyStrip manual_text) ≠ "" :=
    section_strip_ne_empty (manualMarker ++ "\n") (pyStrip manual_text) hpre
  have hsec : (if manual_text ≠ "" ∧ pyStrip manual_text ≠ "" then
      [manualMarker ++ "\n" ++ pyStrip manual_text] else ([] : List String)) =
      [manualMarker ++ "\n" ++ pyStrip manual_text] := if_pos ⟨hm0, hm⟩
  have hjoin : pyJoin "\n\n" ([] ++ [manualMarker ++ "\n" ++ pyStrip manual_text]) =
      manualMarker ++ "\n" ++ pyStrip manual_text := rfl
  unfold scrape_multiple_urls
  dsimp only
  rw [show batchScan envs [] 0 = ⟨[], [], [], []⟩ from rfl]
  dsimp only
  rw [hsec, hjoin, if_neg hne]
  refine ⟨_, rfl, decide_eq_true ⟨hm0, hm⟩, rfl, ?_⟩
  apply (pyContainsB_iff _ _).mpr
  apply List.IsPrefix.isInfix
  apply prefix_pyTake
  · rw [String.data_append, String.data_append]
    rw [List.append_assoc]
    exact List.prefix_append _ _
  · decide

/-- **C7 witness**: the concrete manual-only batch. -/
theorem c7_witness :
    ∃ r, scrape_multiple_urls (fun _ => ⟨none, []⟩) [] "about the doctor" = some r ∧
      r.has_manual_text = true ∧ r.url_count = 0 ∧
      pyContainsB manualMarker r.combined_text = true :=
  c7_manual_only (fun _ => ⟨none, []⟩) "about the doctor" (by decide)

/-- The batch loop appends a section exactly when it appends a
successful URL. -/
theorem batchScan_sections_nil_iff (envs : Nat → SingleEnv)
    (urls : List String) (i : Nat) :
    (batchScan envs urls i).sections = [] ↔
    (batchScan envs urls i).successes = [] := by
  induction urls generalizing i with
  | nil => exact Iff.rfl
  | cons url rest ih =>
    unfold batchScan
    dsimp only
    split
    · exact ih _
    · cases hdata : scrape_single_url (pyStrip url) (envs i) with
      | none => exact ih _
      | some data =>
        dsimp only
        split
        · simp
        · exact ih _

/-- Every section recorded by the batch loop contains the `=`
character of its source-delimiter marker. -/
theorem batchScan_sections_eq_mem (envs : Nat → SingleEnv)
    (urls : List String) (i : Nat) :
    ∀ s ∈ (batchScan envs urls i).sections, '=' ∈ s.data := by
  induction urls generalizing i with
  | nil => intro s hs; cases hs
  | cons url rest ih =>
    unfold batchScan
    dsimp only
    split
    · exact ih _
    · cases hdata : scrape_single_url (pyStrip url) (envs i) with
      | none => exact ih _
      | some data =>
        dsimp only
        split
        · intro s hs
          rcases List.mem_cons.mp hs with rfl | hs2
          · rw [String.data_append, String.data_append, String.data_append]
            refine List.mem_append_left _ (List.mem_append_left _ ?_)
            refine List.mem_append_left _ ?_
            decide
          · exact ih _ s hs2
        · exact ih _

/-- **C5** — The batch extractor returns None exactly when no URL
yielded usable text (no successful URL was recorded) and the manual
text is empty or all-whitespace. -/
theorem c5_null_iff (envs : Nat → SingleEnv) (urls : List String)
    (manual_text : String) :
    scrape_multiple_urls envs urls manual_text = none ↔
    ((batchScan envs urls 0).successes = [] ∧ pyStrip manual_text = "") := by
  constructor
  · intro h
    unfold scrape_multiple_urls at h
    dsimp only at h
    split at h
    case isTrue hmanual =>
      split at h
      case isFalse => cases h
      case isTrue hc =>
        exfalso
        have hmem2 : (manualMarker ++ "\n" ++ pyStrip manual_text) ∈
            (batchScan envs urls 0).sections ++
            [manualMarker ++ "\n" ++ pyStrip manual_text] :=
          List.mem_append_right _ (List.mem_singleton.mpr rfl)
        have hinf := mem_pyJoin_infix "\n\n" _ _ hmem2
        have heq : '=' ∈ (manualMarker ++ "\n" ++ pyStrip manual_text).data := by
          rw [String.data_append, String.data_append]
          refine List.mem_append_left _ (List.mem_append_left _ ?_)
          decide
        exact pyStrip_ne_empty_of_mem _ '=' (hinf.mem heq) (by decide) hc
    case isFalse hmanual =>
      split at h
      case isFalse => cases h
      case isTrue hc =>
        constructor
        · by_contra hs
          have hsec : (batchScan envs urls 0).sections ≠ [] := fun hnil =>
            hs ((batchScan_sections_nil_iff envs urls 0).mp hnil)
          obtain ⟨s, hmem⟩ := List.exists_mem_of_ne_nil _ hsec
          have hmem2 : s ∈ (batchScan envs urls 0).sections ++ ([] : List String) :=
            List.mem_append_left _ hmem
          have hinf := mem_pyJoin_infix "\n\n" s _ hmem2
          have heq : '=' ∈ s.data := batchScan_sections_eq_mem envs urls 0 s hmem
          exact pyStrip_ne_empty_of_mem _ '=' (hinf.mem heq) (by decide) hc
        · by_cases hz : manual_text = ""
          · rw [hz]
            rfl
          · by_contra hm
            exact hmanual ⟨hz, hm⟩
  · rintro ⟨hs, hm⟩
    have hsec : (batchScan envs urls 0).sections = [] :=
      (batchScan_sections_nil_iff envs urls 0).mpr hs
    have hcond : ¬(manual_text ≠ "" ∧ pyStrip manual_text ≠ "") :=
      fun hody => hody.2 hm
    unfold scrape_multiple_urls
    dsimp only
    rw [hsec, if_neg hcond]
    exact if_pos rfl

/-- **C1** — For every URL that does not match the site-specific
override pattern and whose page is fetched successfully (a header
attempt returned HTTP 200 with a body longer than 500 characters), if
the fetched markup contains an `h1` element, or contains neither an
`h1` nor a `title` element, then `scrape_single_url` returns `None`
without attempting any extraction strategy, and the batch loop
records that URL in the error list with the message
`'Request failed'`. -/
theorem c1_h1_or_untitled_returns_none (url : String) (env : SingleEnv)
    (soup : Soup) (err : String)
    (hsite : pyContainsB "maxhealthcare.in/doctor/" (pyLower url) = false)
    (hfetch : fetchLoop env.attempts "" 0 = (some soup, err))
    (hpage : (soupFindH1 soup.doc).isSome = true ∨
      (soupFindH1 soup.doc = none ∧ soupFindTitle soup.doc = none))
    (hu : pyStrip url = url) (hne : url ≠ "") :
    scrape_single_url url env = none ∧
    (batchScan (fun _ => env) [url] 0).errors = [url ++ ": " ++ "Request failed"] := by
  have hcore : scrapeCore soup = none := by
    unfold scrapeCore
    rcases hpage with h1s | ⟨h1n, htn⟩
    · obtain ⟨t, ht⟩ := Option.isSome_iff_exists.mp h1s
      rw [ht]
    · rw [h1n, htn]
  have hsingle : scrape_single_url url env = none := by
    unfold scrape_single_url
    unfold try_site_specific_api
    rw [if_neg (by rw [hsite]; exact Bool.false_ne_true)]
    unfold scrape_single_url.scrapeAfterSite
    rw [hfetch]
    exact hcore
  refine ⟨hsingle, ?_⟩
  unfold batchScan
  dsimp only
  rw [hu, if_neg hne, hsingle]
  rfl

/-- **C1 witness**: a page with an `h1` (and a rich JSON-LD profile)
is dropped with `Request failed`. -/
theorem c1_witness :
    scrape_single_url "https://hospital.example/dr-a" exH1Env = none ∧
    (batchScan (fun _ => exH1Env) ["https://hospital.example/dr-a"] 0).errors =
      ["https://hospital.example/dr-a" ++ ": " ++ "Request failed"] :=
  c1_h1_or_untitled_returns_none "https://hospital.example/dr-a" exH1Env
    exH1Soup "" (by decide) rfl (Or.inl rfl) rfl (by decide)

/-- Whether the fetch loop obtains a page does not depend on the
incoming `last_error` string or attempt counter. -/
theorem fetchLoop_fst_congr (atts : List FetchOutcome) (e1 e2 : String)
    (i1 i2 : Nat) : (fetchLoop atts e1 i1).1 = (fetchLoop atts e2 i2).1 := by
  induction atts generalizing e1 e2 i1 i2 with
  | nil => rfl
  | cons o rest ih =>
    cases o with
    | ok status bodyLen soup =>
      simp only [fetchLoop]
      by_cases hc : status = 200 ∧ bodyLen > 500
      · rw [if_pos hc, if_pos hc]
      · rw [if_neg hc, if_neg hc]
        exact ih _ _ _ _
    | timeout =>
      simp only [fetchLoop]
      exact ih _ _ _ _
    | connError m => rfl
    | exc m =>
      simp only [fetchLoop]
      exact ih _ _ _ _

/-- **C10 (amended)** — Timeouts, non-200 responses and generic
exceptions are recovered locally by moving to the next header
profile: whether a page is obtained depends only on the remaining
attempts; when every attempt is such a failure the fetch surfaces no
page; and a good attempt after any run of such failures is accepted.
(Connection errors are *not* recovered: that is the correction,
witnessed by the counterexample.) -/
theorem c10_retry_semantics :
    (∀ (o : FetchOutcome) (rest : List FetchOutcome) (e : String) (i : Nat),
      retriable o = true →
      (fetchLoop (o :: rest) e i).1 = (fetchLoop rest e (i + 1)).1) ∧
    (∀ (atts : List FetchOutcome) (e : String) (i : Nat),
      (∀ o ∈ atts, retriable o = true) → (fetchLoop atts e i).1 = none) ∧
    (∀ (pre : List FetchOutcome) (soup : Soup) (blen : Nat)
       (rest : List FetchOutcome) (e : String) (i : Nat),
      (∀ o ∈ pre, retriable o = true) → blen > 500 →
      (fetchLoop (pre ++ .ok 200 blen soup :: rest) e i).1 = some soup) := by
  have hstep : ∀ (o : FetchOutcome) (rest : List FetchOutcome) (e : String) (i : Nat),
      retriable o = true →
      (fetchLoop (o :: rest) e i).1 = (fetchLoop rest e (i + 1)).1 := by
    intro o rest e i ho
    cases o with
    | ok status bodyLen soup =>
      have hbad : ¬(status = 200 ∧ bodyLen > 500) := of_decide_eq_true ho
      simp only [fetchLoop]
      rw [if_neg hbad]
      exact fetchLoop_fst_congr _ _ _ _ _
    | timeout =>
      simp only [fetchLoop]
      exact fetchLoop_fst_congr _ _ _ _ _
    | connError m => cases ho
    | exc m =>
      simp only [fetchLoop]
      exact fetchLoop_fst_congr _ _ _ _ _
  refine ⟨hstep, ?_, ?_⟩
  · intro atts
    induction atts with
    | nil => intro e i _; rfl
    | cons o rest ih =>
      intro e i h
      rw [hstep o rest e i (h o (List.mem_cons_self _ _))]
      exact ih _ _ (fun o2 ho2 => h o2 (List.mem_cons_of_mem _ ho2))
  · intro pre
    induction pre with
    | nil =>
      intro soup blen rest e i _ hblen
      rw [List.nil_append]
      simp only [fetchLoop]
      rw [if_pos ⟨trivial, hblen⟩]
    | cons o pre2 ih =>
      intro soup blen rest e i h hblen
      rw [List.cons_append, hstep o _ e i (h o (List.mem_cons_self _ _))]
      exact ih _ _ _ _ _ (fun o2 ho2 => h o2 (List.mem_cons_of_mem _ ho2)) hblen

/-- **C10 witness**: a timeout then a 404 are stepped over, an
all-transient run yields no page, and a good response after a timeout
is accepted. -/
theorem c10_witness :
    (fetchLoop [.timeout, .ok 200 600 exH1Soup] "" 0).1 =
      (fetchLoop [.ok 200 600 exH1Soup] "" 1).1 ∧
    (fetchLoop [.timeout, .ok 404 600 exH1Soup, .exc "boom"] "" 0).1 = none ∧
    (fetchLoop ([.timeout] ++ .ok 200 600 exH1Soup :: []) "" 0).1 = some exH1Soup :=
  ⟨c10_retry_semantics.1 .timeout [.ok 200 600 exH1Soup] "" 0 rfl,
   c10_retry_semantics.2.1 [.timeout, .ok 404 600 exH1Soup, .exc "boom"] "" 0
     (by decide),
   c10_retry_semantics.2.2 [.timeout] exH1Soup 600 [] "" 0 (by decide) (by decide)⟩

/-- **C10 counterexample** — a connection failure on the first header
profile is *not* recovered by the next profile: with a perfectly good
second and third attempt available, the fetch still fails and the
URL surfaces a connection error, contradicting the claim that every
transient failure (including connection refused) is retried. -/
theorem c10_counterexample :
    (fetchLoop [.connError "refused", .ok 200 600 exH1Soup, .ok 200 600 exH1Soup]
      "" 0).1 = none ∧
    scrape_single_url "https://clinic.example/dr-b"
      ⟨none, [.connError "refused", .ok 200 600 exH1Soup, .ok 200 600 exH1Soup]⟩ =
      some ⟨"", "", none, some ("Connection failed: " ++ pyTake "refused" 80)⟩ :=
  ⟨rfl, rfl⟩

/-- **C3 (amended)** — For a URL off the site-specific override, the
structured-data, framework-embedded, semantic and full-body terminal
states return text truncated to the 8000-character per-result cap.
(The meta-only and failure states do *not* truncate — that is the
correction, witnessed by the counterexample.) -/
theorem c3_truncating_states (url : String) (env : SingleEnv)
    (r : ScrapeResult) (m : String)
    (hsite : pyContainsB "maxhealthcare.in/doctor/" (pyLower url) = false)
    (h : scrape_single_url url env = some r)
    (hm : r.method = some m)
    (hm4 : m = "json-ld" ∨ m = "nextjs-data" ∨ m = "semantic" ∨ m = "body-text") :
    pyLen r.text ≤ 8000 := by
  unfold scrape_single_url at h
  unfold try_site_specific_api at h
  rw [if_neg (by rw [hsite]; exact Bool.false_ne_true)] at h
  unfold scrape_single_url.scrapeAfterSite at h
  rcases hf : fetchLoop env.attempts "" 0 with ⟨ho, le⟩
  rw [hf] at h
  cases ho with
  | none =>
    dsimp only at h
    cases h
    cases hm
  | some soup =>
    dsimp only at h
    unfold scrapeCore at h
    split at h
    · cases h
    · split at h
      · cases h
      · dsimp only at h
        split at h
        · cases h
          exact pyLen_pyTake_le _ _
        · split at h
          · cases h
            exact pyLen_pyTake_le _ _
          · split at h
            · cases h
              exact pyLen_pyTake_le _ _
            · split at h
              · cases h
                exact pyLen_pyTake_le _ _
              · split at h
                · cases h
                  injection hm with hmm
                  subst hmm
                  rcases hm4 with h4 | h4 | h4 | h4 <;> exact absurd h4 (by decide)
                · cases h
                  cases hm

set_option maxRecDepth 40000 in
/-- **C3 witness**: a JSON-LD page's result text obeys the 8000 cap. -/
theorem c3_witness :
    pyLen ((scrape_single_url "https://hospital.example/dr-a2" exLdEnv).getD
      ⟨"", "", none, none⟩).text ≤ 8000 :=
  c3_truncating_states "https://hospital.example/dr-a2" exLdEnv _ "json-ld"
    (by decide) rfl rfl (Or.inl rfl)

/-- **C3 counterexample** — the meta-only terminal state is *not*
truncated: a page whose only content is a 15100-character meta
description returns a 15126-character result text, above the
8000-character cap the claim asserts for every terminal state. -/
theorem c3_counterexample :
    scrape_single_url "https://clinic.example/dr-meta" exMetaEnv =
      some ⟨bigMetaText, "T", some "meta-only", none⟩ ∧
    pyLen bigMetaText > 8000 :=
  ⟨exMeta_scrape _ (by decide), by rw [bigMetaText_len]; norm_num⟩

/-- Batch-loop step: a non-blank URL whose scrape succeeds prepends
its section, URL and title. -/
theorem batchScan_cons_success (envs : Nat → SingleEnv) (url : String)
    (i : Nat) (data : ScrapeResult) (rest : List String)
    (hu : pyStrip url = url) (hne : url ≠ "")
    (hdata : scrape_single_url url (envs i) = some data)
    (hok : data.text ≠ "" ∧ pyLen (pyStrip data.text) > 50) :
    batchScan envs (url :: rest) i =
      ⟨("=== SOURCE: " ++ url ++ " ===\n" ++ data.text) ::
         (batchScan envs rest (i + 1)).sections,
       url :: (batchScan envs rest (i + 1)).successes,
       data.title :: (batchScan envs rest (i + 1)).titles,
       (batchScan envs rest (i + 1)).errors⟩ := by
  conv_lhs => rw [batchScan]
  dsimp only
  rw [hu, if_neg hne, hdata]
  dsimp only
  rw [if_pos hok]

/-- Batch-loop step: a non-blank URL whose scrape returns unusable
text appends an error entry. -/
theorem batchScan_cons_failure (envs : Nat → SingleEnv) (url : String)
    (i : Nat) (data : ScrapeResult) (rest : List String)
    (hu : pyStrip url = url) (hne : url ≠ "")
    (hdata : scrape_single_url url (envs i) = some data)
    (hbad : ¬(data.text ≠ "" ∧ pyLen (pyStrip data.text) > 50)) :
    batchScan envs (url :: rest) i =
      ⟨(batchScan envs rest (i + 1)).sections,
       (batchScan envs rest (i + 1)).successes,
       (batchScan envs rest (i + 1)).titles,
       (url ++ ": " ++ data.error.getD "No content extracted") ::
         (batchScan envs rest (i + 1)).errors⟩ := by
  conv_lhs => rw [batchScan]
  dsimp only
  rw [hu, if_neg hne, hdata]
  dsimp only
  rw [if_neg hbad]

/-- Batch-loop step: a non-blank URL whose scrape returns `None`
appends a `Request failed` entry. -/
theorem batchScan_cons_none (envs : Nat → SingleEnv) (url : String)
    (i : Nat) (rest : List String)
    (hu : pyStrip url = url) (hne : url ≠ "")
    (hdata : scrape_single_url url (envs i) = none) :
    batchScan envs (url :: rest) i =
      ⟨(batchScan envs rest (i + 1)).sections,
       (batchScan envs rest (i + 1)).successes,
       (batchScan envs rest (i + 1)).titles,
       (url ++ ": " ++ "Request failed") :: (batchScan envs rest (i + 1)).errors⟩ := by
  conv_lhs => rw [batchScan]
  dsimp only
  rw [hu, if_neg hne, hdata]

/-- The three-URL batch with the huge first page evaluates to
`c6res`. -/
theorem c6_batch_eq :
    scrape_multiple_urls c6envs ["u1", "u2", "u3"] "" = some c6res := by
  have h1 : scrape_single_url "u1" (c6envs 0) =
      some ⟨bigMetaText, "T", some "meta-only", none⟩ :=
    exMeta_scrape "u1" (by decide)
  have h2 : scrape_single_url "u2" (c6envs 1) =
      some ⟨"", "", none, some "Timeout (attempt 3)"⟩ := rfl
  have h3 : scrape_single_url "u3" (c6envs 2) =
      some ⟨smallMetaText, "U", some "meta-only", none⟩ := rfl
  have hs1 : batchScan c6envs ["u1", "u2", "u3"] 0 =
      ⟨[c6sec1, c6sec3], ["u1", "u3"], ["T", "U"],
       ["u2" ++ ": " ++ "Timeout (attempt 3)"]⟩ := by
    rw [batchScan_cons_success c6envs "u1" 0 ⟨bigMetaText, "T", some "meta-only", none⟩
      ["u2", "u3"] rfl (by decide) h1
      ⟨bigMetaText_ne, by rw [bigMetaText_strip, bigMetaText_len]; norm_num⟩]
    rw [batchScan_cons_failure c6envs "u2" 1 ⟨"", "", none, some "Timeout (attempt 3)"⟩
      ["u3"] rfl (by decide) h2 (by intro hx; exact hx.1 rfl)]
    rw [batchScan_cons_success c6envs "u3" 2 ⟨smallMetaText, "U", some "meta-only", none⟩
      [] rfl (by decide) h3 ⟨by decide, by decide⟩]
    rfl
  unfold scrape_multiple_urls
  dsimp only
  rw [hs1]
  dsimp only
  rw [if_neg (show ¬(("" : String) ≠ "" ∧ pyStrip "" ≠ "") from by decide)]
  rw [List.append_nil]
  have hjoin : pyJoin "\n\n" [c6sec1, c6sec3] = (c6sec1 ++ "\n\n") ++ c6sec3 := rfl
  have hcomb : pyStrip (pyJoin "\n\n" [c6sec1, c6sec3]) ≠ "" := by
    rw [hjoin]
    apply pyStrip_ne_empty_of_mem _ '='
    · rw [String.data_append, String.data_append]
      refine List.mem_append_left _ (List.mem_append_left _ ?_)
      unfold c6sec1
      rw [String.data_append, String.data_append, String.data_append]
      refine List.mem_append_left _ (List.mem_append_left _ (List.mem_append_left _ ?_))
      decide
    · decide
  rw [if_neg hcomb]
  rfl

/-- **C6 counterexample** — with 3 URLs where the 2nd fails and the
1st and 3rd succeed, `successfulUrls` has length 2 and `errors`
length 1 as claimed, but when the first source alone exceeds the
15000-character batch cap the truncated `combined_text` does *not*
contain the delimiter marker of URL3: the "markers for exactly 2
sources" part of the claim fails on the stored combined text. -/
theorem c6_counterexample :
    scrape_multiple_urls c6envs ["u1", "u2", "u3"] "" = some c6res ∧
    c6res.urls = ["u1", "u3"] ∧ c6res.errors.length = 1 ∧
    pyContainsB ("=== SOURCE: " ++ "u3") c6res.combined_text = false := by
  refine ⟨c6_batch_eq, rfl, rfl, ?_⟩
  unfold pyContainsB
  apply decide_eq_false
  intro hinf
  have h3 : '3' ∈ ("=== SOURCE: " ++ "u3" : String).data := by decide
  have h3' := hinf.mem h3
  have hres : c6res.combined_text = pyTake c6combined 15000 := rfl
  rw [hres] at h3'
  have hdata : (pyTake c6combined 15000).data = c6combined.data.take 15000 := rfl
  rw [hdata] at h3'
  have hcdata : c6combined.data = (c6sec1.data ++ ("\n\n" : String).data) ++ c6sec3.data := by
    unfold c6combined
    rw [String.data_append, String.data_append]
  rw [hcdata] at h3'
  have hlen1 : c6sec1.data.length = 15145 := by
    unfold c6sec1
    rw [String.data_append, String.data_append, String.data_append]
    rw [List.length_append, List.length_append, List.length_append]
    have hb : bigMetaText.data.length = 15126 := bigMetaText_len
    rw [hb]
    rfl
  have hlen12 : (c6sec1.data ++ ("\n\n" : String).data).length = 15147 := by
    rw [List.length_append, hlen1]
    rfl
  rw [List.take_append_eq_append_take, hlen12] at h3'
  rw [show (15000 - 15147 : Nat) = 0 from by norm_num, List.take_zero,
    List.append_nil] at h3'
  rw [List.take_append_eq_append_take, hlen1] at h3'
  rw [show (15000 - 15145 : Nat) = 0 from by norm_num, List.take_zero,
    List.append_nil] at h3'
  have h3'' : '3' ∈ c6sec1.data := List.take_subset _ _ h3'
  unfold c6sec1 at h3''
  rw [String.data_append, String.data_append, String.data_append] at h3''
  rcases List.mem_append.mp h3'' with hshort | hbig
  · rcases List.mem_append.mp hshort with hshort2 | hmark
    · rcases List.mem_append.mp hshort2 with ha | hb
      · exact absurd ha (by decide)
      · exact absurd hb (by decide)
    · exact absurd hmark (by decide)
  · rcases mem_bigMetaText '3' hbig with hlit | haa
    · exact absurd hlit (by decide)
    · exact absurd haa (by decide)

/-- **C6 (amended)** — A single URL's failure never aborts the batch:
for 3 non-blank URLs where the 2nd fails (scrape returns `None` or
unusable text) and the 1st and 3rd succeed, the result is non-null,
`successfulUrls` is exactly `[URL1, URL3]`, `errors` has length 1,
and the *pre-truncation* combined text consists of exactly the two
source-delimited sections in order URL1 then URL3; `combined_text` is
its 15000-character prefix (so the URL3 marker survives whenever the
combined text fits the batch cap — the counterexample shows it can be
truncated away when the first section alone exceeds the cap). -/
theorem c6_one_failure_never_aborts (envs : Nat → SingleEnv)
    (u1 u2 u3 : String) (d1 d3 : ScrapeResult)
    (hu1 : pyStrip u1 = u1) (hn1 : u1 ≠ "")
    (hu2 : pyStrip u2 = u2) (hn2 : u2 ≠ "")
    (hu3 : pyStrip u3 = u3) (hn3 : u3 ≠ "")
    (h1 : scrape_single_url u1 (envs 0) = some d1)
    (hok1 : d1.text ≠ "" ∧ pyLen (pyStrip d1.text) > 50)
    (hfail : scrape_single_url u2 (envs 1) = none ∨
      ∃ d2, scrape_single_url u2 (envs 1) = some d2 ∧
        ¬(d2.text ≠ "" ∧ pyLen (pyStrip d2.text) > 50))
    (h3 : scrape_single_url u3 (envs 2) = some d3)
    (hok3 : d3.text ≠ "" ∧ pyLen (pyStrip d3.text) > 50) :
    ∃ r, scrape_multiple_urls envs [u1, u2, u3] "" = some r ∧
      r.urls = [u1, u3] ∧ r.errors.length = 1 ∧
      r.combined_text =
        pyTake ((("=== SOURCE: " ++ u1 ++ " ===\n" ++ d1.text) ++ "\n\n") ++
          ("=== SOURCE: " ++ u3 ++ " ===\n" ++ d3.text)) 15000 ∧
      r.total_chars =
        pyLen ((("=== SOURCE: " ++ u1 ++ " ===\n" ++ d1.text) ++ "\n\n") ++
          ("=== SOURCE: " ++ u3 ++ " ===\n" ++ d3.text)) := by
  have main : ∀ e : String,
      batchScan envs [u1, u2, u3] 0 =
        ⟨["=== SOURCE: " ++ u1 ++ " ===\n" ++ d1.text,
          "=== SOURCE: " ++ u3 ++ " ===\n" ++ d3.text],
         [u1, u3], [d1.title, d3.title], [e]⟩ →
      ∃ r, scrape_multiple_urls envs [u1, u2, u3] "" = some r ∧
        r.urls = [u1, u3] ∧ r.errors.length = 1 ∧
        r.combined_text =
          pyTake ((("=== SOURCE: " ++ u1 ++ " ===\n" ++ d1.text) ++ "\n\n") ++
            ("=== SOURCE: " ++ u3 ++ " ===\n" ++ d3.text)) 15000 ∧
        r.total_chars =
          pyLen ((("=== SOURCE: " ++ u1 ++ " ===\n" ++ d1.text) ++ "\n\n") ++
            ("=== SOURCE: " ++ u3 ++ " ===\n" ++ d3.text)) := by
    intro e hscan
    unfold scrape_multiple_urls
    dsimp only
    rw [hscan]
    dsimp only
    rw [if_neg (show ¬(("" : String) ≠ "" ∧ pyStrip "" ≠ "") from by decide)]
    rw [List.append_nil]
    have hjoin : pyJoin "\n\n"
        ["=== SOURCE: " ++ u1 ++ " ===\n" ++ d1.text,
         "=== SOURCE: " ++ u3 ++ " ===\n" ++ d3.text] =
        (("=== SOURCE: " ++ u1 ++ " ===\n" ++ d1.text) ++ "\n\n") ++
          ("=== SOURCE: " ++ u3 ++ " ===\n" ++ d3.text) := rfl
    rw [hjoin]
    have hcomb : pyStrip ((("=== SOURCE: " ++ u1 ++ " ===\n" ++ d1.text) ++ "\n\n") ++
        ("=== SOURCE: " ++ u3 ++ " ===\n" ++ d3.text)) ≠ "" := by
      apply pyStrip_ne_empty_of_mem _ '='
      · rw [String.data_append, String.data_append, String.data_append,
          String.data_append, String.data_append]
        refine List.mem_append_left _ (List.mem_append_left _
          (List.mem_append_left _ (List.mem_append_left _
            (List.mem_append_left _ ?_))))
        decide
      · decide
    rw [if_neg hcomb]
    exact ⟨_, rfl, rfl, rfl, rfl, rfl⟩
  rcases hfail with h2 | ⟨d2, h2, hbad2⟩
  · refine main (u2 ++ ": " ++ "Request failed") ?_
    rw [batchScan_cons_success envs u1 0 d1 [u2, u3] hu1 hn1 h1 hok1,
        batchScan_cons_none envs u2 1 [u3] hu2 hn2 h2,
        batchScan_cons_success envs u3 2 d3 [] hu3 hn3 h3 hok3]
    rfl
  · refine main (u2 ++ ": " ++ d2.error.getD "No content extracted") ?_
    rw [batchScan_cons_success envs u1 0 d1 [u2, u3] hu1 hn1 h1 hok1,
        batchScan_cons_failure envs u2 1 d2 [u3] hu2 hn2 h2 hbad2,
        batchScan_cons_success envs u3 2 d3 [] hu3 hn3 h3 hok3]
    rfl

theorem ne_empty_of_pyLen_pos (s : String) (h : 0 < pyLen s) : s ≠ "" := by
  intro hz
  rw [hz] at h
  cases h

/-- List version of `prefix_pyTake`. -/
theorem prefix_take_list (p l : List Char) (n : Nat)
    (h : p <+: l) (hl : p.length ≤ n) : p <+: l.take n := by
  obtain ⟨suf, hsuf⟩ := h
  rw [← hsuf, List.take_append_eq_append_take, List.take_of_length_le hl]
  exact ⟨_, rfl⟩

/-- A block that sits within the first 8000 characters survives the
per-result truncation. -/
theorem name_infix_take (pre nm tail full : List Char)
    (hfull : full = pre ++ (nm ++ tail))
    (hlen : pre.length + nm.length ≤ 8000) :
    nm <:+: full.take 8000 := by
  have hp : (pre ++ nm) <+: full := by
    rw [hfull, ← List.append_assoc]
    exact ⟨tail, rfl⟩
  have hp2 : (pre ++ nm) <+: full.take 8000 :=
    prefix_take_list _ _ _ hp (by rw [List.length_append]; exact hlen)
  exact (List.suffix_append pre nm).isInfix.trans hp2.isInfix

open JVal in
theorem fieldPart_name (fs : List (String × JVal)) (n : String)
    (hname : getAttr fs "name" = some (JVal.jstr n)) (hn : n ≠ "") :
    fieldPart fs "name" "Name: " = ["Name: " ++ n] := by
  unfold fieldPart
  rw [hname]
  show (if (JVal.jstr n).jtruthy = true then ["Name: " ++ (JVal.jstr n).pyStr]
    else []) = ["Name: " ++ n]
  rw [if_pos (show JVal.jtruthy (JVal.jstr n) = true from by
    simp [JVal.jtruthy, hn])]
  rfl

open JVal in
/-- When a profile item's parts build without error and the item has
a truthy name, the `Name:` line comes first. -/
theorem ldParts_name_head (fs : List (String × JVal)) (n : String)
    (ps : List String)
    (hname : getAttr fs "name" = some (JVal.jstr n)) (hn : n ≠ "")
    (hps : ldParts fs = some ps) :
    ∃ rest, ps = ("Name: " ++ n) :: rest := by
  unfold ldParts at hps
  dsimp only at hps
  rw [fieldPart_name fs n hname hn] at hps
  split at hps
  · cases hps
  · refine ⟨_, (Option.some.inj hps).symm⟩

open JVal in
/-- A page whose single JSON-LD script is one profile-typed object
extracts exactly that item's labelled lines. -/
theorem extract_jsonld_single (fs : List (String × JVal)) (ps : List String)
    (hng : getAttr fs "@graph" = none)
    (htype : typeMatch fs = true)
    (hps : ldParts fs = some ps)
    (hne : ps ≠ []) :
    extract_jsonld [some (JVal.jobj fs)] = pyJoin "\n" ps := by
  unfold extract_jsonld
  dsimp only [List.foldl]
  unfold ldScript
  rw [show ldItemsOf (JVal.jobj fs) = some [JVal.jobj fs] from by
    unfold ldItemsOf
    show (match getAttr fs "@graph" with
      | some g =>
        match g with
        | JVal.jarr ys => some ys
        | JVal.jobj gs => some (List.map (fun p => JVal.jstr p.1) gs)
        | JVal.jstr s => some (List.map (fun c => JVal.jstr (String.singleton c)) s.data)
        | _ => none
      | none => some [JVal.jobj fs]) = some [JVal.jobj fs]
    rw [hng]]
  unfold ldItems
  show pyJoin "\n\n"
    (if typeMatch fs = true then
      (match ldParts fs with
        | none => []
        | some ps => ldItems [] (if ps.isEmpty = true then [] else [] ++ [pyJoin "\n" ps]))
      else
        match getAttr fs "description" with
        | some d =>
          if d.jtruthy = true ∧ pyLen d.pyStr > 50 then
            ldItems []
              ([] ++
                ["[" ++ ((getAttr fs "@type").getD (JVal.jstr "")).pyStr ++ "] " ++
                  ((getAttr fs "name").getD (JVal.jstr "")).pyStr ++ ": " ++ d.pyStr])
          else ldItems [] []
        | none => ldItems [] []) = pyJoin "\n" ps
  rw [if_pos htype, hps]
  dsimp only
  rw [if_neg (show ¬ps.isEmpty = true from by
    simp [List.isEmpty_iff]
    exact hne)]
  rfl

/-- **C2 (amended)** — For a fetched page with no `h1` and a `title`,
whose single JSON-LD script is a well-formed profile-typed block with
a (non-empty) name, and whose labelled structured-data text exceeds
100 characters, strategy selection chooses structured-data extraction
over semantic-content extraction (method `json-ld`), and the
structured-data text carries the line `Name: <value>`; the returned
text contains that line whenever the page title and name fit within
the 8000-character result cap. -/
theorem c2_jsonld_over_semantic (soup : Soup) (t n : String)
    (fs : List (String × JVal)) (ps : List String)
    (hh1 : soupFindH1 soup.doc = none)
    (ht : soupFindTitle soup.doc = some t)
    (hld : soup.ld = [some (JVal.jobj fs)])
    (hng : JVal.getAttr fs "@graph" = none)
    (htype : typeMatch fs = true)
    (hname : JVal.getAttr fs "name" = some (JVal.jstr n))
    (hn : n ≠ "")
    (hps : ldParts fs = some ps)
    (hlen : pyLen (extract_jsonld soup.ld) > 100) :
    ∃ r, scrapeCore soup = some r ∧ r.method = some "json-ld" ∧
      pyContainsB ("Name: " ++ n) (extract_jsonld soup.ld) = true ∧
      (pyLen t + pyLen n ≤ 7960 →
        pyContainsB ("Name: " ++ n) r.text = true) := by
  obtain ⟨restp, hrest⟩ := ldParts_name_head fs n ps hname hn hps
  have hjs : extract_jsonld soup.ld = pyJoin "\n" ps := by
    rw [hld]
    exact extract_jsonld_single fs ps hng htype hps (by rw [hrest]; simp)
  have hjoin : ∃ tl : List Char,
      (pyJoin "\n" ps).data = ("Name: " ++ n).data ++ tl := by
    rw [hrest]
    cases restp with
    | nil => exact ⟨[], by simp [pyJoin]⟩
    | cons q qs =>
      refine ⟨("\n" ++ pyJoin "\n" (q :: qs)).data, ?_⟩
      show (("Name: " ++ n) ++ "\n" ++ pyJoin "\n" (q :: qs)).data = _
      rw [String.data_append, String.data_append, String.data_append]
      simp
  obtain ⟨tl, htl⟩ := hjoin
  have hnamein : pyContainsB ("Name: " ++ n) (extract_jsonld soup.ld) = true := by
    rw [hjs]
    apply (pyContainsB_iff _ _).mpr
    rw [htl]
    exact List.IsPrefix.isInfix ⟨tl, rfl⟩
  have hjs_ne : extract_jsonld soup.ld ≠ "" :=
    ne_empty_of_pyLen_pos _ (by omega)
  unfold scrapeCore
  rw [hh1, ht]
  dsimp only
  rw [if_pos ⟨hjs_ne, hlen⟩]
  refine ⟨_, rfl, rfl, hnamein, ?_⟩
  intro hb
  apply (pyContainsB_iff _ _).mpr
  have hlen2 : (("[Page: " : String).data ++ (t.data ++
      ("]\n\n--- Structured Data ---\n" : String).data)).length +
      ("Name: " ++ n).data.length ≤ 8000 := by
    rw [List.length_append, List.length_append, String.data_append,
      List.length_append]
    have e1 : ("[Page: " : String).data.length = 7 := rfl
    have e2 : ("]\n\n--- Structured Data ---\n" : String).data.length = 27 := rfl
    have e3 : ("Name: " : String).data.length = 6 := rfl
    rw [e1, e2, e3]
    have hb2 : t.data.length + n.data.length ≤ 7960 := hb
    omega
  split
  · apply name_infix_take (("[Page: " : String).data ++ (t.data ++
      ("]\n\n--- Structured Data ---\n" : String).data)) _
      (tl ++ (("\n\n--- Page Content ---\n" : String).data ++
        (extract_semantic_content soup.doc).data)) _ ?_ hlen2
    show ("[Page: " ++ t ++ "]\n\n--- Structured Data ---\n" ++
        extract_jsonld soup.ld ++ "\n\n--- Page Content ---\n" ++
        extract_semantic_content soup.doc).data = _
    rw [hjs]
    simp only [String.data_append]
    rw [htl]
    simp
  · apply name_infix_take (("[Page: " : String).data ++ (t.data ++
      ("]\n\n--- Structured Data ---\n" : String).data)) _ tl _ ?_ hlen2
    show ("[Page: " ++ t ++ "]\n\n--- Structured Data ---\n" ++
        extract_jsonld soup.ld).data = _
    rw [hjs]
    simp only [String.data_append]
    rw [htl]
    simp

/-- The bounded list walk only visits the first `b` items. -/
theorem ndWalkList_take (xs : List JVal) (p : String) (d b : Nat) :
    ndWalkList xs p d b = ndWalkList (xs.take b) p d b := by
  induction xs generalizing b with
  | nil => rw [List.take_nil]
  | cons x rest ih =>
    cases b with
    | zero => rfl
    | succ m =>
      rw [List.take_succ_cons]
      show ndWalk x p (d + 1) ++ ndWalkList rest p d m =
        ndWalk x p (d + 1) ++ ndWalkList (rest.take m) p d m
      rw [ih m]

/-- Deduplicated entries never normalise into the seen set. -/
theorem ndDedup_not_mem_seen (parts : List String) :
    ∀ (seen : List String) (x : String), x ∈ ndDedup parts seen →
      pyStrip (pyLower x) ∉ seen := by
  induction parts with
  | nil => intro seen x hx; cases hx
  | cons p rest ih =>
    intro seen x hx
    unfold ndDedup at hx
    dsimp only at hx
    split at hx
    case isTrue hcond =>
      rcases List.mem_cons.mp hx with rfl | hx2
      · exact hcond.1
      · intro hmem
        exact ih _ x hx2 (List.mem_cons_of_mem _ hmem)
    case isFalse => exact ih _ x hx

/-- The deduplication loop yields pairwise-distinct normalised
entries. -/
theorem ndDedup_nodup (parts : List String) :
    ∀ seen : List String,
      ((ndDedup parts seen).map (fun p => pyStrip (pyLower p))).Nodup := by
  induction parts with
  | nil => intro seen; exact List.nodup_nil
  | cons p rest ih =>
    intro seen
    unfold ndDedup
    dsimp only
    split
    case isTrue hcond =>
      rw [List.map_cons]
      refine List.nodup_cons.mpr ⟨?_, ih _⟩
      intro hmem
      obtain ⟨x, hx, hxn⟩ := List.mem_map.mp hmem
      exact ndDedup_not_mem_seen rest _ x hx (by rw [hxn]; exact List.mem_cons_self _ _)
    case isFalse => exact ih _

/-- **C9 (amended)** — The framework-embedded JSON walk collects
string leaves only down to depth 6 and at most 50 siblings per list;
it keeps a string when it is longer than 20 characters and not
URL/path/id-shaped, or when its length is *between 6 and 20*
characters and its key matches a known biographical field name
(strings of 5 or fewer characters are dropped even under a
biographical key — that is the correction); it prefers the sub-tree
under the `doctor` key over the whole payload, deduplicates
case-insensitively, and caps the output at 100 entries. -/
theorem c9_nextdata_walk :
    (∀ (v : JVal) (p : String) (d : Nat), 6 < d → ndWalk v p d = []) ∧
    (∀ (xs : List JVal) (p : String) (d : Nat),
      ndWalk (JVal.jarr xs) p d = ndWalk (JVal.jarr (xs.take 50)) p d) ∧
    (∀ (s p : String) (d : Nat), d ≤ 6 → ndKeepLong (pyStrip s) p = true →
      ndWalk (JVal.jstr s) p d = [pyStrip s]) ∧
    (∀ (s p : String) (d : Nat), d ≤ 6 → ndKeepLong (pyStrip s) p = false →
      5 < pyLen (pyStrip s) → pyLen (pyStrip s) ≤ 20 → pyLower p ∈ bioKeys →
      ndWalk (JVal.jstr s) p d = [p ++ ": " ++ pyStrip s]) ∧
    (∀ (fs ps gs : List (String × JVal)) (v : JVal),
      JVal.getAttr fs "props" = some (JVal.jobj ps) →
      JVal.getAttr ps "pageProps" = some (JVal.jobj gs) →
      JVal.jtruthy (JVal.jobj gs) = true →
      JVal.getAttr gs "doctor" = some v → JVal.jtruthy v = true →
      ndRun (JVal.jobj fs) = ndOut (ndWalk v "" 0)) ∧
    (∀ (parts seen : List String),
      ((ndDedup parts seen).map (fun p => pyStrip (pyLower p))).Nodup) ∧
    (∀ nd : Option JVal, ∃ l : List String,
      extract_nextdata nd = pyJoin "\n" l ∧ l.length ≤ 100) := by
  refine ⟨?_, ?_, ?_, ?_, ?_, ndDedup_nodup, ?_⟩
  · intro v p d hd
    unfold ndWalk
    rw [if_pos hd]
  · intro xs p d
    unfold ndWalk
    by_cases hd : d > 6
    · rw [if_pos hd, if_pos hd]
    · rw [if_neg hd, if_neg hd]
      exact ndWalkList_take xs p d 50
  · intro s p d hd hkeep
    unfold ndWalk
    rw [if_neg (by omega)]
    dsimp only
    rw [if_pos hkeep]
  · intro s p d hd hlong h5 h20 hbio
    unfold ndWalk
    rw [if_neg (by omega)]
    dsimp only
    rw [if_neg (by rw [hlong]; exact Bool.false_ne_true)]
    rw [if_pos (show ndKeepShort (pyStrip s) p = true from by
      simp only [ndKeepShort, Bool.and_eq_true, decide_eq_true_eq]
      exact ⟨⟨h5, h20⟩, hbio⟩)]
  · intro fs ps gs v hp hpp htr hdoc hvt
    unfold ndRun
    dsimp only
    rw [hp]
    dsimp only [Option.getD]
    rw [hpp]
    dsimp only [Option.getD]
    rw [if_neg (not_not_intro htr)]
    show (match ndTarget doctorKeys gs with
      | some target => ndOut (ndWalk target "" 0)
      | none => ndOut (ndWalk (JVal.jobj gs) "" 0)) = ndOut (ndWalk v "" 0)
    have htarget : ndTarget doctorKeys gs = some v := by
      show (match JVal.getAttr gs "doctor" with
        | some v2 => if v2.jtruthy = true then some v2
          else ndTarget ["doctorDetail", "doctorData", "profileData",
            "doctorProfile", "data", "pageData", "detail", "doctorInfo",
            "profile"] gs
        | none => ndTarget ["doctorDetail", "doctorData", "profileData",
            "doctorProfile", "data", "pageData", "detail", "doctorInfo",
            "profile"] gs) = some v
      rw [hdoc]
      dsimp only
      rw [if_pos hvt]
    rw [htarget]
  · intro nd
    have hout : ∀ parts : List String, ∃ l,
        ndOut parts = pyJoin "\n" l ∧ l.length ≤ 100 := by
      intro parts
      refine ⟨(ndDedup parts []).take 100, rfl, ?_⟩
      rw [List.length_take]
      omega
    have hshape : ∀ d : JVal, ndRun d = "" ∨ ∃ parts, ndRun d = ndOut parts := by
      intro d
      unfold ndRun
      rcases d with s | nn | b | _ | xs | fs
      · exact Or.inl rfl
      · exact Or.inl rfl
      · exact Or.inl rfl
      · exact Or.inl rfl
      · exact Or.inl rfl
      · dsimp only
        rcases hv : (JVal.getAttr fs "props").getD (JVal.jobj [])
          with s2 | n2 | b2 | _ | xs2 | ps
        · exact Or.inl rfl
        · exact Or.inl rfl
        · exact Or.inl rfl
        · exact Or.inl rfl
        · exact Or.inl rfl
        · dsimp only
          split
          · exact Or.inl rfl
          · split
            · split
              · exact Or.inr ⟨_, rfl⟩
              · exact Or.inr ⟨_, rfl⟩
            · split
              · exact Or.inl rfl
              · exact Or.inr ⟨_, rfl⟩
            · split
              · exact Or.inl rfl
              · exact Or.inr ⟨_, rfl⟩
            · exact Or.inl rfl
    cases nd with
    | none => exact ⟨[], rfl, by norm_num⟩
    | some d =>
      show ∃ l, ndRun d = pyJoin "\n" l ∧ l.length ≤ 100
      rcases hshape d with h | ⟨parts, h⟩
      · exact ⟨[], by rw [h]; rfl, by norm_num⟩
      · obtain ⟨l, hl, hlen⟩ := hout parts
        exact ⟨l, by rw [h, hl], hlen⟩

set_option maxRecDepth 40000 in
/-- **C9 witness**: concrete instances of the walk's depth cap,
sibling cap, keep rules, doctor-key preference, deduplication and
output cap. -/
theorem c9_witness :
    ndWalk (JVal.jstr "long enough to keep here") "bio" 7 = [] ∧
    ndWalk (JVal.jarr []) "x" 0 = ndWalk (JVal.jarr ([].take 50)) "x" 0 ∧
    ndWalk (JVal.jstr "long enough to keep here") "bio" 3 =
      [pyStrip "long enough to keep here"] ∧
    ndWalk (JVal.jstr "Cardiology") "specialty" 2 =
      ["specialty" ++ ": " ++ pyStrip "Cardiology"] ∧
    ndRun (JVal.jobj [("props", JVal.jobj [("pageProps",
      JVal.jobj [("doctor", JVal.jstr "some doctor payload")])])]) =
      ndOut (ndWalk (JVal.jstr "some doctor payload") "" 0) ∧
    ((ndDedup ["A", "a", "b"] []).map (fun p => pyStrip (pyLower p))).Nodup ∧
    ∃ l, extract_nextdata (some (JVal.jobj [])) = pyJoin "\n" l ∧ l.length ≤ 100 :=
  ⟨c9_nextdata_walk.1 _ _ 7 (by omega),
   c9_nextdata_walk.2.1 [] "x" 0,
   c9_nextdata_walk.2.2.1 _ "bio" 3 (by omega) (by decide),
   c9_nextdata_walk.2.2.2.1 _ "specialty" 2 (by omega) (by decide) (by decide)
     (by decide) (by decide),
   c9_nextdata_walk.2.2.2.2.1 _ [("pageProps",
      JVal.jobj [("doctor", JVal.jstr "some doctor payload")])]
     [("doctor", JVal.jstr "some doctor payload")]
     (JVal.jstr "some doctor payload") rfl rfl (by decide) rfl (by decide),
   c9_nextdata_walk.2.2.2.2.2.1 ["A", "a", "b"] [],
   c9_nextdata_walk.2.2.2.2.2.2 (some (JVal.jobj []))⟩

/-- **C9 counterexample** — a 3-character city under the preferred
doctor sub-tree is *dropped*, although its key matches a known
biographical field name and the claim says shorter key-matched
strings are kept: the code additionally requires more than 5
characters. -/
theorem c9_counterexample :
    pyLower "city" ∈ bioKeys ∧ pyLen (pyStrip "Goa") ≤ 20 ∧
    extract_nextdata (some (JVal.jobj [("props", JVal.jobj [("pageProps",
      JVal.jobj [("doctor", JVal.jobj [("city", JVal.jstr "Goa")])])])])) = "" :=
  ⟨by decide, by decide, rfl⟩

set_option maxRecDepth 40000 in
/-- **C2 witness**: the JSON-LD-only physician page selects
structured data and labels the name. -/
theorem c2_witness :
    ∃ r, scrapeCore exLdSoup = some r ∧ r.method = some "json-ld" ∧
      pyContainsB ("Name: " ++ "Dr. A") (extract_jsonld exLdSoup.ld) = true ∧
      (pyLen "Dr. A — Hospital" + pyLen "Dr. A" ≤ 7960 →
        pyContainsB ("Name: " ++ "Dr. A") r.text = true) :=
  c2_jsonld_over_semantic exLdSoup "Dr. A — Hospital" "Dr. A" exPhysFields
    ["Name: " ++ "Dr. A", "Description: " ++ exDesc]
    rfl rfl rfl rfl rfl rfl (by decide) rfl (by decide)

set_option maxRecDepth 40000 in
/-- **C2 counterexample** — a page carrying a rich, well-formed
JSON-LD physician block *with* a name is nevertheless not routed to
structured-data extraction when the page has an `h1`:
`scrape_single_url` returns `None`, so no strategy is selected and no
`Name:` line is returned, contradicting the claim as stated for
arbitrary pages. -/
theorem c2_counterexample :
    pyContainsB "Name: " (extract_jsonld exH1Soup.ld) = true ∧
    pyLen (extract_jsonld exH1Soup.ld) > 100 ∧
    scrape_single_url "https://hospital.example/dr-a" exH1Env = none :=
  ⟨by decide, by decide, rfl⟩

set_option maxRecDepth 40000 in
/-- **C6 witness**: a concrete 3-URL batch (small success, timeout,
small success). -/
theorem c6_witness :
    ∃ r, scrape_multiple_urls c6envsSmall ["a", "b", "c"] "" = some r ∧
      r.urls = ["a", "c"] ∧ r.errors.length = 1 ∧
      r.combined_text =
        pyTake ((("=== SOURCE: " ++ "a" ++ " ===\n" ++ smallMetaText) ++ "\n\n") ++
          ("=== SOURCE: " ++ "c" ++ " ===\n" ++ smallMetaText)) 15000 ∧
      r.total_chars =
        pyLen ((("=== SOURCE: " ++ "a" ++ " ===\n" ++ smallMetaText) ++ "\n\n") ++
          ("=== SOURCE: " ++ "c" ++ " ===\n" ++ smallMetaText)) :=
  c6_one_failure_never_aborts c6envsSmall "a" "b" "c"
    ⟨smallMetaText, "U", some "meta-only", none⟩
    ⟨smallMetaText, "U", some "meta-only", none⟩
    rfl (by decide) rfl (by decide) rfl (by decide)
    rfl ⟨by decide, by decide⟩
    (Or.inr ⟨⟨"", "", none, some "Timeout (attempt 3)"⟩, rfl, by
      intro hx
      exact hx.1 rfl⟩)
    rfl ⟨by decide, by decide⟩

/-- Strings that start with distinct characters stay distinct under
appends. -/
theorem string_head_mismatch (p q u v : String) (cp cq : Char)
    (hp : p.data = cp :: p.data.tail) (hq : q.data = cq :: q.data.tail)
    (hne : cp ≠ cq) : p ++ u ≠ q ++ v := by
  intro h
  have h2 := congrArg String.data h
  rw [String.data_append, String.data_append, hp, hq] at h2
  rw [List.cons_append, List.cons_append] at h2
  injection h2 with h3 _
  exact hne h3

theorem str_append_cancel_left (s a b : String) (h : s ++ a = s ++ b) : a = b := by
  have h2 := congrArg String.data h
  rw [String.data_append, String.data_append] at h2
  have h3 := List.append_cancel_left h2
  cases a with
  | mk da =>
    cases b with
    | mk db => exact congrArg String.mk h3

/-- Only a list item can format to a bulleted line (unless the raw
text itself starts with the bullet, which the side condition rules
out). -/
theorem semFmt_bullet_inv (t clean c : String)
    (h : semFmt t clean = "• " ++ c) (hne : clean ≠ "• " ++ c) :
    t = "li" ∧ clean = c := by
  unfold semFmt at h
  split at h
  · exact absurd h (string_head_mismatch "\n## " "• " clean c '\n' '•' rfl rfl (by decide))
  · split at h
    case isTrue htl =>
      exact ⟨htl, str_append_cancel_left "• " clean c h⟩
    case isFalse =>
      split at h
      · rw [String.append_assoc] at h
        exact absurd h (string_head_mismatch "\n**" "• " (clean ++ "**") c '\n' '•' rfl rfl (by decide))
      · split at h
        · exact absurd h (string_head_mismatch "  " "• " clean c ' ' '•' rfl rfl (by decide))
        · exact absurd h hne

/-- Every list item whose normalised text is new and shared only with
other list items is emitted with the bullet prefix. -/
theorem semProcess_li_mem (elems : List Node) :
    ∀ (seen : List String) (li : Node), li ∈ elems →
    li.tagOf = some "li" →
    ¬(pyLen (Node.getTextStrip " " li) < 5) →
    normWS (Node.getTextStrip " " li) ∉ seen →
    (∀ e ∈ elems, normWS (Node.getTextStrip " " e) =
      normWS (Node.getTextStrip " " li) → e.tagOf = some "li") →
    ("• " ++ normWS (Node.getTextStrip " " li)) ∈ semProcess elems seen := by
  induction elems with
  | nil => intro seen li h; cases h
  | cons e rest ih =>
    intro seen li hmem htag hlen hseen huniq
    have huniq' : ∀ x ∈ rest, normWS (Node.getTextStrip " " x) =
        normWS (Node.getTextStrip " " li) → x.tagOf = some "li" :=
      fun x hx => huniq x (List.mem_cons_of_mem _ hx)
    unfold semProcess
    dsimp only
    split
    case isTrue hskip =>
      have hne : li ≠ e := by
        intro heq
        subst heq
        rw [Bool.and_eq_true] at hskip
        rw [htag] at hskip
        simp at hskip
      exact ih _ li ((List.mem_cons.mp hmem).resolve_left hne) htag hlen hseen huniq'
    case isFalse hskip =>
      split
      case isTrue hshort =>
        have hne : li ≠ e := by
          intro heq
          subst heq
          rcases hshort with hz | hs
          · exact hlen (by rw [hz]; decide)
          · exact hlen hs
        exact ih _ li ((List.mem_cons.mp hmem).resolve_left hne) htag hlen hseen huniq'
      case isFalse hshort =>
        split
        case isTrue hdup =>
          have hne : li ≠ e := by
            intro heq
            subst heq
            exact hseen hdup
          exact ih _ li ((List.mem_cons.mp hmem).resolve_left hne) htag hlen hseen huniq'
        case isFalse hdup =>
          by_cases hcl : normWS (Node.getTextStrip " " e) =
              normWS (Node.getTextStrip " " li)
          · have htag2 : e.tagOf = some "li" := huniq e (List.mem_cons_self _ _) hcl
            refine List.mem_cons.mpr (Or.inl ?_)
            rw [htag2, hcl]
            rfl
          · have hne : li ≠ e := fun h' => hcl (by rw [h'])
            have hseen' : normWS (Node.getTextStrip " " li) ∉
                normWS (Node.getTextStrip " " e) :: seen := by
              intro hmm
              rcases List.mem_cons.mp hmm with hmm2 | hmm2
              · exact hcl hmm2.symm
              · exact hseen hmm2
            exact List.mem_cons_of_mem _
              (ih _ li ((List.mem_cons.mp hmem).resolve_left hne) htag hlen hseen' huniq')

/-- Once a bulleted line's text is in the seen set (and no element's
raw text masquerades as the bulleted line) it is never emitted. -/
theorem semProcess_count_zero (elems : List Node) :
    ∀ (seen : List String) (c : String), c ∈ seen →
    (∀ e ∈ elems, normWS (Node.getTextStrip " " e) ≠ "• " ++ c) →
    (semProcess elems seen).count ("• " ++ c) = 0 := by
  induction elems with
  | nil => intro seen c _ _; rfl
  | cons e rest ih =>
    intro seen c hc hno
    have hno' : ∀ x ∈ rest, normWS (Node.getTextStrip " " x) ≠ "• " ++ c :=
      fun x hx => hno x (List.mem_cons_of_mem _ hx)
    unfold semProcess
    dsimp only
    split
    · exact ih _ _ hc hno'
    · split
      · exact ih _ _ hc hno'
      · split
        case isTrue => exact ih _ _ hc hno'
        case isFalse hdup =>
          rw [List.count_cons]
          simp only [beq_iff_eq]
          rw [if_neg (show ¬(semFmt (e.tagOf.getD "")
              (normWS (Node.getTextStrip " " e)) = "• " ++ c) from ?_)]
          · rw [ih _ _ (List.mem_cons_of_mem _ hc) hno']
          · intro hf
            obtain ⟨_, hcl⟩ := semFmt_bullet_inv _ _ _ hf
              (hno e (List.mem_cons_self _ _))
            exact hdup (hcl ▸ hc)

/-- Each bulleted line appears at most once in the semantic output. -/
theorem semProcess_count_le_one (elems : List Node) :
    ∀ (seen : List String) (c : String),
    (∀ e ∈ elems, normWS (Node.getTextStrip " " e) ≠ "• " ++ c) →
    (semProcess elems seen).count ("• " ++ c) ≤ 1 := by
  induction elems with
  | nil => intro seen c _; exact Nat.zero_le 1
  | cons e rest ih =>
    intro seen c hno
    have hno' : ∀ x ∈ rest, normWS (Node.getTextStrip " " x) ≠ "• " ++ c :=
      fun x hx => hno x (List.mem_cons_of_mem _ hx)
    unfold semProcess
    dsimp only
    split
    · exact ih _ _ hno'
    · split
      · exact ih _ _ hno'
      · split
        · exact ih _ _ hno'
        · rw [List.count_cons]
          simp only [beq_iff_eq]
          by_cases hf : semFmt (e.tagOf.getD "")
              (normWS (Node.getTextStrip " " e)) = "• " ++ c
          · obtain ⟨_, hcl⟩ := semFmt_bullet_inv _ _ _ hf
              (hno e (List.mem_cons_self _ _))
            rw [if_pos hf]
            rw [semProcess_count_zero rest _ c (hcl ▸ List.mem_cons_self _ _) hno']
          · rw [if_neg hf]
            simpa using ih _ _ hno'

/-- The container selection accepts the first `main` element when it
carries more than 150 characters of stripped text. -/
theorem semContainer_main (w m : Node)
    (hfind : Node.findFirst (tagIs "main") w = some m)
    (hlen : pyLen (Node.getTextStrip "" m) > 150) :
    semContainer w = m := by
  have hsc : selectContainer containerSelectors w = some m := by
    obtain ⟨restSel, hrest⟩ : ∃ rest, containerSelectors = tagIs "main" :: rest :=
      ⟨_, rfl⟩
    rw [hrest]
    unfold selectContainer
    rw [hfind]
    dsimp only
    rw [if_pos hlen]
  unfold semContainer
  rw [hsc]

/-- C8 (amended): for a fetched page with no `h1` element and a title,
with no structured data and no framework-embedded payload, whose
noise-pruned document has a `main` element with more than 150
characters of stripped text and whose semantic extraction exceeds 200
characters, the extractor chooses the semantic-content strategy; the
semantic text is the newline-join of the formatted blocks of that
`main` element, every list item of the container at least 5 characters
long whose normalised text is carried only by list items appears in it
prefixed with the bullet marker, and when no block's normalised text
equals the bulleted line itself the bulleted line is emitted at most
once.  (The original claim fails on pages with an `h1`, on list items
shorter than 5 characters, and duplicates are collapsed.) -/
theorem c8_semantic_bullets (soup : Soup) (t : String) (m : Node)
    (hh1 : soupFindH1 soup.doc = none)
    (ht : soupFindTitle soup.doc = some t)
    (hjl : extract_jsonld soup.ld = "")
    (hnd : extract_nextdata soup.nextData = "")
    (hmain : Node.findFirst (tagIs "main") (semanticClean soup.doc) = some m)
    (hmlen : pyLen (Node.getTextStrip "" m) > 150)
    (hsem : pyLen (extract_semantic_content soup.doc) > 200) :
    (∃ r, scrapeCore soup = some r ∧ r.method = some "semantic") ∧
    extract_semantic_content soup.doc =
      pyJoin "\n" (semProcess (Node.findAll isBlockTag m) []) ∧
    (∀ li ∈ Node.findAll isBlockTag m, li.tagOf = some "li" →
      ¬ pyLen (Node.getTextStrip " " li) < 5 →
      (∀ e ∈ Node.findAll isBlockTag m,
        normWS (Node.getTextStrip " " e) = normWS (Node.getTextStrip " " li) →
        e.tagOf = some "li") →
      ("• " ++ normWS (Node.getTextStrip " " li)).data <:+:
        (extract_semantic_content soup.doc).data ∧
      ((∀ e ∈ Node.findAll isBlockTag m,
          normWS (Node.getTextStrip " " e) ≠
            "• " ++ normWS (Node.getTextStrip " " li)) →
        (semProcess (Node.findAll isBlockTag m) []).count
          ("• " ++ normWS (Node.getTextStrip " " li)) ≤ 1)) := by
  have hcont : semContainer (semanticClean soup.doc) = m :=
    semContainer_main _ _ hmain hmlen
  have hsemEq : extract_semantic_content soup.doc =
      pyJoin "\n" (semProcess (Node.findAll isBlockTag m) []) := by
    show pyJoin "\n" (semProcess (Node.findAll isBlockTag
      (semContainer (semanticClean soup.doc))) []) = _
    rw [hcont]
  have hsemne : extract_semantic_content soup.doc ≠ "" :=
    ne_empty_of_pyLen_pos _ (by omega)
  have hcore : scrapeCore soup = some
      { text := pyTake ("[Page: " ++ t ++ "]\n" ++
          (if extract_meta_tags soup.doc ≠ "" then
            "\n" ++ extract_meta_tags soup.doc ++ "\n" else "") ++
          "\n" ++ extract_semantic_content soup.doc) 8000,
        title := t, method := some "semantic" } := by
    simp only [scrapeCore, hh1, ht, hjl, hnd]
    rw [if_neg (by decide), if_neg (by decide), if_pos ⟨hsemne, hsem⟩]
  refine ⟨⟨_, hcore, rfl⟩, hsemEq, ?_⟩
  intro li hli htag hlen huniq
  have hmem := semProcess_li_mem (Node.findAll isBlockTag m) [] li hli htag
    hlen (List.not_mem_nil _) huniq
  refine ⟨?_, ?_⟩
  · rw [hsemEq]
    exact mem_pyJoin_infix "\n" _ _ hmem
  · intro hno
    exact semProcess_count_le_one _ [] _ hno

set_option maxRecDepth 20000 in
/-- Witness for C8: the semantic example page (title, no `h1`, no
structured data, long `main`) satisfies every hypothesis and the
extractor picks the semantic strategy on it. -/
theorem c8_witness :
    ∃ r, scrapeCore exSemSoup = some r ∧ r.method = some "semantic" :=
  (c8_semantic_bullets exSemSoup "Dr. B Profile" exSemMain rfl rfl rfl rfl rfl
    (by decide) (by decide)).1

set_option maxRecDepth 20000 in
/-- Counterexample to C8 as stated: `exH1Doc` has no structured data,
no framework payload, and a `main` element whose semantic extraction
exceeds 200 characters, yet the extractor returns `None` (the strategy
cascade is nested inside the no-`h1` branch), so the semantic-content
strategy is not chosen. -/
theorem c8_counterexample :
    (Node.findFirst (tagIs "main") (semanticClean exH1Doc)).isSome = true ∧
    pyLen (extract_semantic_content exH1Doc) > 200 ∧
    scrapeCore ⟨exH1Doc, [], none⟩ = none :=
  ⟨rfl, by decide, rfl⟩

end Scraper
